import Mathlib

/-!
Shallow embedding of the ARTIQSeq1 experiment sequences (src/Seq2.py,
src/Seq5.py, src/Seq6.py, src/Seq7.py) and proofs about the claims of the
specification.

Modelling conventions:
* Time units: one machine unit = 1 ns.  The RTIO timeline cursor (now_mu)
  is an `Int`; `delay`/`pulse` advance it by the scheduled duration;
  `break_realtime` (and `core.reset`) jump it to an externally determined
  slack value, modelled by `Env.slack` indexed by the ordinal of the jump.
* Gate reads (`ttl0.timestamp_mu`, `ttl1.timestamp_mu`) are nondeterministic
  inputs, modelled by `Env.t0`/`Env.t1` indexed by the ordinal of the
  executed attempt; the value -1 is the no-edge sentinel, as in ARTIQ.
* The per-chunk numpy buffers (`ttl0_detected_times`, ... of size chunk_max)
  are modelled as fixed-length `List Int` written through `List.set`;
  ARTIQ kernels bounds-check subscripts and raise on an out-of-range write,
  which we model by the `err` flag (the spec calls this `CapacityExceeded`);
  once `err` is set the kernel has aborted and every operation is a no-op.
* Ghost instrumentation fields (`execOrd`, `attemptLog`, `log0`, `log1`,
  `logT`, `recoveries`, `ops`) record observable events of the run; they
  mirror the writes and control flow and are never read by the model.
-/

namespace ArtiqSeq

/-- Machine units per microsecond (1 mu = 1 ns). -/
def usU : Int := 1000

/-- Machine units per millisecond. -/
def msU : Int := 1000000

/-- `mot_load_time = 500 * ms` (Seq5.py line 104). -/
def motLoadTime : Int := 500 * msU

/-- `atom_load_time = 100 * ms`. -/
def atomLoadTime : Int := 100 * msU

/-- Timeline advance of one attempt body: `delay(5*us)`, pump pulse
`optical_pump_time = 10*us`, `delay(small_delay = 1*us)`, excitation pulse
`50*ns`, `delay(small_delay)`, then the sequential block: `ttl7.pulse(50*ns)`
followed by the parallel gates of `gate_rising_time = 100*ns`. -/
def attemptAdvance : Int := 5 * usU + 10 * usU + 1 * usU + 50 + 1 * usU + 50 + 100

/-- Timeline advance of the post-detection (tomography) action:
`delay(3*us)` then a `10*ms` pulse on ttl4. -/
def tomoAdvance : Int := 3 * usU + 10 * msU

/-- Timeline advance of the cooling retune: `delay(12*us)` twice. -/
def retuneAdvance : Int := 12 * usU + 12 * usU

/-- Abstract kernel operations, for the scheduling trace.  `timed` covers
every RTIO call scheduled against the timeline cursor (ttl on/off/pulse,
dds set/amplitude/switch, delay, gate open); `breakRT` is
`core.break_realtime()` (slack insertion; `core.reset()` also inserts
slack); `hostWait` is the synchronous host RPC `host_mot_load_wait`. -/
inductive KOp where
  | timed   : KOp
  | breakRT : KOp
  | hostWait : KOp
deriving DecidableEq

/-- Nondeterministic inputs of a chunk run: gate-read results per executed
attempt and cursor positions established by each slack insertion. -/
structure Env where
  t0 : Nat → Int
  t1 : Nat → Int
  slack : Nat → Int

/-- State of one chunk kernel run (Seq5/Seq6/Seq7 `run_chunk_experiment`).
The six fixed-capacity buffers and their counts are the source's numpy
arrays and counters; the remaining fields are the attempt counter, the
timeline cursor, and ghost instrumentation. -/
structure KState where
  attempt_index : Nat
  t0times : List Int
  t0attempts : List Int
  c0 : Nat
  t1times : List Int
  t1attempts : List Int
  c1 : Nat
  tomoTimes : List Int
  tomoAttempts : List Int
  ctomo : Nat
  cap : Nat
  cursor : Int
  breaks : Nat
  err : Bool
  execOrd : Nat
  attemptLog : List Nat
  log0 : List (Int × Int)
  log1 : List (Int × Int)
  logT : List (Int × Int)
  recoveries : Nat
  ops : List KOp

/-- Initial kernel state of a chunk: `core.reset()` (a slack insertion,
consuming slack ordinal 0) followed by the four TTL direction
configuration calls; all buffers are the freshly allocated zero arrays of
length `cap` and every counter is zero. -/
def initState (env : Env) (cap : Nat) : KState :=
  { attempt_index := 0
    t0times := List.replicate cap 0
    t0attempts := List.replicate cap 0
    c0 := 0
    t1times := List.replicate cap 0
    t1attempts := List.replicate cap 0
    c1 := 0
    tomoTimes := List.replicate cap 0
    tomoAttempts := List.replicate cap 0
    ctomo := 0
    cap := cap
    cursor := env.slack 0
    breaks := 1
    err := false
    execOrd := 0
    attemptLog := []
    log0 := []
    log1 := []
    logT := []
    recoveries := 0
    ops := [KOp.breakRT, KOp.timed, KOp.timed, KOp.timed, KOp.timed] }

/-- `self.ttl0_detected_times[c0] = t; self.ttl0_detected_attempts[c0] =
attempt_index; c0 += 1`.  The write is bounds-checked: at `c0 = cap` the
kernel raises (capacity exceeded) and aborts, leaving the buffers as they
were. -/
def write0 (s : KState) (t : Int) : KState :=
  if s.c0 < s.cap then
    { s with
      t0times := s.t0times.set s.c0 t
      t0attempts := s.t0attempts.set s.c0 (Int.ofNat s.attempt_index)
      c0 := s.c0 + 1
      log0 := s.log0 ++ [(t, Int.ofNat s.attempt_index)] }
  else { s with err := true }

/-- The same for channel ttl1. -/
def write1 (s : KState) (t : Int) : KState :=
  if s.c1 < s.cap then
    { s with
      t1times := s.t1times.set s.c1 t
      t1attempts := s.t1attempts.set s.c1 (Int.ofNat s.attempt_index)
      c1 := s.c1 + 1
      log1 := s.log1 ++ [(t, Int.ofNat s.attempt_index)] }
  else { s with err := true }

/-- `tomography_time = now_mu(); atom_tomo_times[ctomo] = tomography_time;
atom_tomo_attempts[ctomo] = attempt_index; ctomo += 1`.  The timestamp is
the cursor value at the moment of the call, before the tomography pulse. -/
def writeTomo (s : KState) : KState :=
  if s.ctomo < s.cap then
    { s with
      tomoTimes := s.tomoTimes.set s.ctomo s.cursor
      tomoAttempts := s.tomoAttempts.set s.ctomo (Int.ofNat s.attempt_index)
      ctomo := s.ctomo + 1
      logT := s.logT ++ [(s.cursor, Int.ofNat s.attempt_index)] }
  else { s with err := true }

/-- Scheduling trace of one attempt body: delay, pump pulse, delay,
excitation pulse, delay, ttl7 pulse, two gate opens. -/
def attemptOps : List KOp :=
  [KOp.timed, KOp.timed, KOp.timed, KOp.timed, KOp.timed, KOp.timed,
   KOp.timed, KOp.timed]

/-- Scheduling trace of the tomography action: delay, ttl4.on, delay,
ttl4.off. -/
def tomoOps : List KOp :=
  [KOp.timed, KOp.timed, KOp.timed, KOp.timed]

/-- Scheduling trace of the cooling retune (delay, set, amplitude, switch
on, twice, then the two switch-offs). -/
def retuneOps : List KOp :=
  [KOp.timed, KOp.timed, KOp.timed, KOp.timed, KOp.timed, KOp.timed,
   KOp.timed, KOp.timed, KOp.timed, KOp.timed]

/-- Pump, excite, open both gates in parallel, read both timestamps; this
common prefix of every attempt advances the cursor by `attemptAdvance`,
consumes the next pair of gate results, and logs the attempt. -/
def attemptShots (s : KState) : KState :=
  { s with
    cursor := s.cursor + attemptAdvance
    execOrd := s.execOrd + 1
    attemptLog := s.attemptLog ++ [s.attempt_index]
    ops := s.ops ++ attemptOps }

/-- One attempt of Seq5.py lines 177-230 / Seq6.py lines 172-222
(early-termination variant).  Returns the state and the
`photon_detected_this_cycle` flag.  Note the faithful placement of
`attempt_index += 1`: it is only reached on the no-detection path, because
the detection branch ends in `break`. -/
def attemptET (env : Env) (s : KState) : KState × Bool :=
  if s.err then (s, false) else
  let t0 := env.t0 s.execOrd
  let t1 := env.t1 s.execOrd
  let s1 := attemptShots s
  let s2 := if t0 ≠ -1 then write0 s1 t0 else s1
  let s3 := if s2.err then s2 else if t1 ≠ -1 then write1 s2 t1 else s2
  if s3.err then (s3, false)
  else if t0 ≠ -1 ∨ t1 ≠ -1 then
    let s4 := writeTomo s3
    if s4.err then (s4, false)
    else ({ s4 with cursor := s4.cursor + tomoAdvance, ops := s4.ops ++ tomoOps },
          true)
  else ({ s3 with attempt_index := s3.attempt_index + 1 }, false)

/-- `for rep in range(attempts_per_cooling)` of the early-termination
variant: run attempts until one detects (then `break`) or the budget is
exhausted. -/
def attemptLoopET (env : Env) : Nat → KState → KState × Bool
  | 0, s => (s, false)
  | a + 1, s =>
    if s.err then (s, false) else
    let p := attemptET env s
    if p.1.err then (p.1, p.2)
    else if p.2 then (p.1, true)
    else attemptLoopET env a p.1

/-- The short cooling retune run when no photon was found in a cooling
cycle (Seq5.py lines 237-251). -/
def coolingRetune (s : KState) : KState :=
  if s.err then s else
  { s with
    cursor := s.cursor + retuneAdvance
    recoveries := s.recoveries + 1
    ops := s.ops ++ retuneOps }

/-- `for cycle_idx in range(num_cooling_cycles)` of the early-termination
variant: run the attempt budget; on detection break out of the cooling
cycles, otherwise retune and continue. -/
def coolingLoopET (env : Env) (A : Nat) : Nat → KState → KState
  | 0, s => s
  | n + 1, s =>
    if s.err then s else
    let p := attemptLoopET env A s
    if p.1.err then p.1
    else if p.2 then p.1
    else coolingLoopET env A n (coolingRetune p.1)

/-- Seq5.py big-cycle preamble (lines 137-170): `break_realtime`, MOT
beams/coils on, two DDS configured and switched on, `delay(mot_load_time)`,
everything off, atom-load DDS on for `atom_load_time`, then the
pump/excitation DDS configured.  Only the cursor, the break counter and
the trace change. -/
def preamble5 (env : Env) (s : KState) : KState :=
  if s.err then s else
  { s with
    cursor := env.slack s.breaks + motLoadTime + atomLoadTime
    breaks := s.breaks + 1
    ops := s.ops ++
      [KOp.breakRT,
       KOp.timed, KOp.timed, KOp.timed,
       KOp.timed, KOp.timed, KOp.timed,
       KOp.timed, KOp.timed, KOp.timed,
       KOp.timed,
       KOp.timed, KOp.timed, KOp.timed, KOp.timed, KOp.timed,
       KOp.timed, KOp.timed, KOp.timed, KOp.timed, KOp.timed,
       KOp.timed, KOp.timed, KOp.timed] }

/-- Scheduling trace of the Seq6.py/Seq7.py big-cycle preamble: break,
MOT on (3 ttl + 2x3 dds calls), break, the synchronous host wait, break,
everything off (5 calls), atom load dds set/amplitude/on, the 100 ms
delay, dds off, and the ch3 set/amplitude/on. -/
def preamble6Ops : List KOp :=
  [KOp.breakRT,
   KOp.timed, KOp.timed, KOp.timed,
   KOp.timed, KOp.timed, KOp.timed,
   KOp.timed, KOp.timed, KOp.timed,
   KOp.breakRT, KOp.hostWait, KOp.breakRT,
   KOp.timed, KOp.timed, KOp.timed, KOp.timed, KOp.timed,
   KOp.timed, KOp.timed, KOp.timed, KOp.timed, KOp.timed,
   KOp.timed, KOp.timed, KOp.timed]

/-- Seq6.py big-cycle preamble (lines 128-166), also Seq7.py lines
124-163: as in Seq5 but the 500 ms MOT load is a host-side wait bracketed
by `break_realtime` calls, so three slack insertions are consumed and the
cursor afterwards is the last slack plus the 100 ms atom-load delay. -/
def preamble6 (env : Env) (s : KState) : KState :=
  if s.err then s else
  { s with
    cursor := env.slack (s.breaks + 2) + atomLoadTime
    breaks := s.breaks + 3
    ops := s.ops ++ preamble6Ops }

/-- The `core.break_realtime()` closing every big cycle. -/
def endBreak (env : Env) (s : KState) : KState :=
  if s.err then s else
  { s with
    cursor := env.slack s.breaks
    breaks := s.breaks + 1
    ops := s.ops ++ [KOp.breakRT] }

/-- One big cycle of Seq5.py `run_chunk_experiment` (lines 135-254). -/
def bigCycle5 (env : Env) (NC A : Nat) (s : KState) : KState :=
  endBreak env (coolingLoopET env A NC (preamble5 env s))

/-- One big cycle of Seq6.py `run_chunk_experiment` (lines 126-246). -/
def bigCycle6 (env : Env) (NC A : Nat) (s : KState) : KState :=
  endBreak env (coolingLoopET env A NC (preamble6 env s))

/-- `for big_cycle_idx in range(num_big_cycles_chunk)` for Seq5. -/
def bigLoop5 (env : Env) (NC A : Nat) : Nat → KState → KState
  | 0, s => s
  | b + 1, s => bigLoop5 env NC A b (bigCycle5 env NC A s)

/-- `for big_cycle_idx in range(num_big_cycles_chunk)` for Seq6. -/
def bigLoop6 (env : Env) (NC A : Nat) : Nat → KState → KState
  | 0, s => s
  | b + 1, s => bigLoop6 env NC A b (bigCycle6 env NC A s)

/-- `FullExperimentSequence16.run_chunk_experiment` (Seq5.py): one chunk of
`B` big cycles, `NC` cooling cycles of `A` attempts each, buffers of
capacity `cap`; returns the final kernel state (the kernel's return value
is the triple of counts `(c0, c1, ctomo)`). -/
def runChunk5 (env : Env) (B NC A cap : Nat) : KState :=
  bigLoop5 env NC A B (initState env cap)

/-- `FullExperimentSequence17.run_chunk_experiment` (Seq6.py). -/
def runChunk6 (env : Env) (B NC A cap : Nat) : KState :=
  bigLoop6 env NC A B (initState env cap)

/-- One attempt of Seq7.py lines 168-200 (exhaust-all-attempts variant):
no early termination, no tomography; `attempt_index += 1` is executed
after every attempt. -/
def attempt7 (env : Env) (s : KState) : KState :=
  if s.err then s else
  let t0 := env.t0 s.execOrd
  let t1 := env.t1 s.execOrd
  let s1 := attemptShots s
  let s2 := if t0 ≠ -1 then write0 s1 t0 else s1
  let s3 := if s2.err then s2 else if t1 ≠ -1 then write1 s2 t1 else s2
  if s3.err then s3 else { s3 with attempt_index := s3.attempt_index + 1 }

/-- `for rep in range(attempts_per_cooling)` of Seq7 (no break). -/
def attemptLoop7 (env : Env) : Nat → KState → KState
  | 0, s => s
  | a + 1, s =>
    if s.err then s else attemptLoop7 env a (attempt7 env s)

/-- `for cycle_idx in range(num_cooling_cycles)` of Seq7: all attempts,
then the cooling retune, unconditionally. -/
def coolingLoop7 (env : Env) (A : Nat) : Nat → KState → KState
  | 0, s => s
  | n + 1, s =>
    if s.err then s else
    coolingLoop7 env A n (coolingRetune (attemptLoop7 env A s))

/-- One big cycle of Seq7.py `run_chunk_experiment` (lines 123-220); the
preamble is the same as Seq6's (host-side MOT wait). -/
def bigCycle7 (env : Env) (NC A : Nat) (s : KState) : KState :=
  endBreak env (coolingLoop7 env A NC (preamble6 env s))

/-- The big-cycle loop of Seq7. -/
def bigLoop7 (env : Env) (NC A : Nat) : Nat → KState → KState
  | 0, s => s
  | b + 1, s => bigLoop7 env NC A b (bigCycle7 env NC A s)

/-- `FullExperimentSequence21.run_chunk_experiment` (Seq7.py). -/
def runChunk7 (env : Env) (B NC A cap : Nat) : KState :=
  bigLoop7 env NC A B (initState env cap)

/-! ### Host-side drain (Seq5.py `run` lines 288-313, Seq6.py lines 282-301)

After a chunk the host retrieves the full buffers over RPC and slices each
to the count returned by the kernel; only the sliced data is handed to the
persistence sinks. -/

/-- The per-chunk data handed to persistence: each buffer sliced to its
used length (`used_ttl0_times = ttl0_detected_times_raw[:ttl0_count]`,
etc.). -/
structure Drained where
  d0t : List Int
  d0a : List Int
  d1t : List Int
  d1a : List Int
  dTt : List Int
  dTa : List Int
deriving DecidableEq

/-- Slice every retrieved buffer to the count reported by the kernel. -/
def drainOf (s : KState) : Drained :=
  { d0t := s.t0times.take s.c0
    d0a := s.t0attempts.take s.c0
    d1t := s.t1times.take s.c1
    d1a := s.t1attempts.take s.c1
    dTt := s.tomoTimes.take s.ctomo
    dTa := s.tomoAttempts.take s.ctomo }

/-! ### Host orchestration of Seq6.py `run` (lines 254-338)

Per chunk the host allocates buffers of size `6 * num_big_cycles_chunk`,
runs the kernel, slices, publishes to the dataset manager (live,
best-effort), appends a group to the HDF5 file, and flushes it.  We model
the persistence-relevant behaviour as a trace of events. -/

/-- Host persistence events: `publish` is `set_dataset(..., broadcast=True)`
(the live sink), `append` is the creation of the per-chunk HDF5 group with
its six datasets, `flush` is `self.h5file.flush()`. -/
inductive HEv where
  | publish : Nat → Drained → HEv
  | append : Nat → Drained → HEv
  | flush : HEv
deriving DecidableEq

/-- The chunk loop of Seq6.py `run`, emitting persistence events; `k` is
the number of chunks still to run and `c` the current chunk index. -/
def hostRun6 (envs : Nat → Env) (B NC A : Nat) : Nat → Nat → List HEv
  | 0, _ => []
  | k + 1, c =>
    let d := drainOf (runChunk6 (envs c) B NC A (6 * B))
    HEv.publish c d :: HEv.append c d :: HEv.flush :: hostRun6 envs B NC A k (c + 1)

/-- The full persistence trace of `FullExperimentSequence17.run` with
`num_chunks = n`. -/
def hostTrace6 (envs : Nat → Env) (B NC A n : Nat) : List HEv :=
  hostRun6 envs B NC A n 0

/-- Durability semantics of an append-only file with explicit flushes: an
appended group is durable once a later `flush` has happened.  `dur` is the
durable content, `pend` the appended-but-unflushed content. -/
def durAux : List HEv → List (Nat × Drained) → List (Nat × Drained) →
    List (Nat × Drained)
  | [], dur, _ => dur
  | HEv.publish _ _ :: r, dur, pend => durAux r dur pend
  | HEv.append c d :: r, dur, pend => durAux r dur (pend ++ [(c, d)])
  | HEv.flush :: r, dur, pend => durAux r (dur ++ pend) []

/-- The data that survives a crash right after the given event prefix. -/
def durable (tr : List HEv) : List (Nat × Drained) :=
  durAux tr [] []

/-! ### `FullExperimentSequence13` (Seq2.py)

The fixed-repetition variant: 10 cycles of 50 repetitions; every
repetition appends the two `timestamp_mu` results (-1 when no edge) to the
host lists via synchronous RPCs, and `write_to_csv` pairs the two lists by
index. -/

/-- `for rep_idx in range(repetitions_per_cycle)`: each repetition appends
`ttl_time0` to `time_tags_0` and `ttl_time1` to `time_tags_1`; `k` is the
ordinal of the repetition (indexing the gate results). -/
def repLoop13 (env : Env) : Nat → Nat → List Int × List Int → List Int × List Int
  | 0, _, acc => acc
  | r + 1, k, acc =>
    repLoop13 env r (k + 1) (acc.1 ++ [env.t0 k], acc.2 ++ [env.t1 k])

/-- `for cycle_idx in range(num_cycles)`: 50 repetitions then a cooling
retune (which appends nothing). -/
def cycleLoop13 (env : Env) (reps : Nat) : Nat → Nat → List Int × List Int →
    List Int × List Int
  | 0, _, acc => acc
  | c + 1, k, acc => cycleLoop13 env reps c (k + reps) (repLoop13 env reps k acc)

/-- `FullExperimentSequence13.run` (Seq2.py lines 47-175):
`num_cycles = 10`, `repetitions_per_cycle = 50`, starting from the two
empty lists built in `build`. -/
def run13 (env : Env) : List Int × List Int :=
  cycleLoop13 env 50 10 0 ([], [])

/-- `FullExperimentSequence13.write_to_csv` (Seq2.py lines 38-45): one row
per index of `time_tags_0`, pairing the two lists positionally; row `i`
is `[i+1, time_tags_0[i], time_tags_1[i]]`. -/
def csv13 (tags : List Int × List Int) : List (Nat × Int × Int) :=
  (List.range tags.1.length).map fun i => (i + 1, tags.1.getD i 0, tags.2.getD i 0)

/-! ### Specification functions over the inputs -/

/-- Number of attempts among the first `n` whose ttl0 gate read an edge. -/
def cnt0 (env : Env) (n : Nat) : Nat :=
  ((List.range n).filter fun k => env.t0 k != -1).length

/-- Number of attempts among the first `n` whose ttl1 gate read an edge. -/
def cnt1 (env : Env) (n : Nat) : Nat :=
  ((List.range n).filter fun k => env.t1 k != -1).length

/-- The (timestamp, attempt ordinal) pairs of the ttl0 detections among
the first `n` attempts, in order. -/
def dets0 (env : Env) (n : Nat) : List (Int × Int) :=
  ((List.range n).filter fun k => env.t0 k != -1).map fun k =>
    (env.t0 k, Int.ofNat k)

/-- The ttl1 detections among the first `n` attempts. -/
def dets1 (env : Env) (n : Nat) : List (Int × Int) :=
  ((List.range n).filter fun k => env.t1 k != -1).map fun k =>
    (env.t1 k, Int.ofNat k)

/-- No scheduling trace entry is the synchronous host wait. -/
def noWait (l : List KOp) : Bool :=
  l.all fun x => x ≠ KOp.hostWait

/-- Every occurrence of the synchronous host wait in a scheduling trace is
immediately followed by a slack insertion (`break_realtime`). -/
def waitOk : List KOp → Bool
  | [] => true
  | KOp.hostWait :: r =>
    (match r with
     | KOp.breakRT :: _ => true
     | _ => false) && waitOk r
  | _ :: r => waitOk r

/-! ### Concrete environments used for witnesses and counterexamples -/

/-- An edge on ttl0 (timestamp 7) at every attempt, ttl1 silent. -/
def envDet0 : Env :=
  { t0 := fun _ => 7, t1 := fun _ => -1, slack := fun _ => 0 }

/-- No edge ever on either channel. -/
def envQuiet : Env :=
  { t0 := fun _ => -1, t1 := fun _ => -1, slack := fun _ => 0 }

/-- A single edge on ttl0 (timestamp 9) at attempt ordinal 1, nothing
else. -/
def envOne : Env :=
  { t0 := fun n => if n = 1 then 9 else -1, t1 := fun _ => -1,
    slack := fun _ => 0 }

/-- Edges on both channels at every attempt. -/
def envBoth : Env :=
  { t0 := fun _ => 7, t1 := fun _ => 8, slack := fun _ => 0 }

/-! ### General list helpers -/

/-- Writing at the current count and taking one more element appends the
written value to the previously used prefix. -/
theorem take_set_snoc {α : Type} :
    ∀ (l : List α) (c : Nat) (v : α), c < l.length →
      (l.set c v).take (c + 1) = l.take c ++ [v]
  | [], c, v, h => absurd h (by simp)
  | x :: xs, 0, v, _ => by simp
  | x :: xs, c + 1, v, h => by
    have := take_set_snoc xs c v (by simpa using h)
    simp [this]

/-- Appending one element to two equal-length lists appends the pair to
their zip. -/
theorem zip_snoc {α β : Type} (x : List α) (y : List β) (a : α) (b : β)
    (h : x.length = y.length) :
    (x ++ [a]).zip (y ++ [b]) = x.zip y ++ [(a, b)] := by
  rw [List.zip_append h]
  rfl

/-! ### Claim C1 -/

/-- C1: the claim that `attempt_index` increments once per attempt
regardless of outcome fails in the early-termination variants: in
Seq5.py (and identically Seq6.py) the detection branch ends in `break`
before the `attempt_index += 1` statement is reached (Seq5.py line 227
versus line 230, whose comment reads "Increment attempt_index for every
attempt"), so a detecting attempt leaves the counter unchanged.  With two
big cycles of one cooling cycle and one attempt each and an edge on ttl0
in every attempt, the two executed attempts of the chunk both carry
attempt_index 0, and both detection records are stored with
attempt_index 0 — the index repeats within the chunk. -/
theorem C1_attempt_index_reused_after_detection :
    (runChunk5 envDet0 2 1 1 12).attemptLog = [0, 0] ∧
    (runChunk5 envDet0 2 1 1 12).log0 = [(7, 0), (7, 0)] ∧
    (runChunk6 envDet0 2 1 1 12).attemptLog = [0, 0] ∧
    (runChunk6 envDet0 2 1 1 12).log0 = [(7, 0), (7, 0)] := by
  decide

/-! ### Claim C10 -/

/-- The repetition loop of Seq2.py appends exactly one gate result per
repetition to each list. -/
theorem repLoop13_spec (env : Env) :
    ∀ (r k : Nat) (acc : List Int × List Int),
      repLoop13 env r k acc =
        (acc.1 ++ (List.range' k r).map env.t0,
         acc.2 ++ (List.range' k r).map env.t1) := by
  intro r
  induction r with
  | zero => intro k acc; simp [repLoop13]
  | succ r ih =>
    intro k acc
    rw [repLoop13, ih]
    simp [List.range'_succ]

/-- The cycle loop of Seq2.py runs `c * reps` repetitions in order. -/
theorem cycleLoop13_spec (env : Env) (reps : Nat) :
    ∀ (c k : Nat) (acc : List Int × List Int),
      cycleLoop13 env reps c k acc =
        (acc.1 ++ (List.range' k (c * reps)).map env.t0,
         acc.2 ++ (List.range' k (c * reps)).map env.t1) := by
  intro c
  induction c with
  | zero => intro k acc; simp [cycleLoop13]
  | succ c ih =>
    intro k acc
    rw [cycleLoop13, repLoop13_spec, ih]
    have h : List.range' k reps ++ List.range' (k + reps) (c * reps) =
        List.range' k (c * reps + reps) := by
      have h2 := List.range'_append k reps (c * reps) 1
      rw [one_mul] at h2
      exact h2
    rw [Nat.succ_mul, ← h, List.map_append, List.map_append,
      List.append_assoc, List.append_assoc]

/-- C10: in `FullExperimentSequence13` every repetition appends exactly
one time tag to each of the two channel lists (whatever `timestamp_mu`
returned — the sentinel -1 when no edge occurred), so after the full run
both lists have length `num_cycles * repetitions_per_cycle = 500`, they
always have equal length, and the CSV writer's index pairing is
well-defined: row `i` (written with leading entry `i+1`) holds the two
gate results of repetition `i`. -/
theorem C10_fixed_repetition_pairing (env : Env) :
    (run13 env).1.length = 500 ∧ (run13 env).2.length = 500 ∧
    (run13 env).1 = (List.range 500).map env.t0 ∧
    (run13 env).2 = (List.range 500).map env.t1 ∧
    csv13 (run13 env) =
      (List.range 500).map fun i => (i + 1, env.t0 i, env.t1 i) := by
  have h1 : run13 env =
      ((List.range 500).map env.t0, (List.range 500).map env.t1) := by
    rw [run13, cycleLoop13_spec]
    norm_num [List.range_eq_range']
  refine ⟨by rw [h1]; simp, by rw [h1]; simp, by rw [h1], by rw [h1], ?_⟩
  rw [h1, csv13]
  simp only [List.length_map, List.length_range]
  apply List.map_congr_left
  intro i hi
  have hilt : i < 500 := List.mem_range.mp hi
  simp [List.getD_eq_getElem?_getD, List.getElem?_map,
    List.getElem?_range hilt]

/-! ### Claim C5: quiet environments -/

/-- Gluing consecutive `range'` intervals. -/
theorem range'_glue (b m n : Nat) :
    List.range' b m ++ List.range' (b + m) n = List.range' b (m + n) := by
  have h2 := List.range'_append b m n 1
  rw [one_mul] at h2
  rw [h2, Nat.add_comm]

/-- No edge is ever read on either channel. -/
def Quiet (env : Env) : Prop :=
  (∀ n, env.t0 n = -1) ∧ (∀ n, env.t1 n = -1)

/-- The recording state (counts, records, capacity) is unchanged. -/
def Untouched (s s' : KState) : Prop :=
  s'.c0 = s.c0 ∧ s'.c1 = s.c1 ∧ s'.ctomo = s.ctomo ∧
  s'.log0 = s.log0 ∧ s'.log1 = s.log1 ∧ s'.logT = s.logT ∧ s'.cap = s.cap

/-- In a quiet environment one attempt of the early-termination variant
detects nothing, records nothing, and increments `attempt_index`. -/
theorem attemptET_quiet {env : Env} (hq : Quiet env) (s : KState)
    (herr : s.err = false) :
    attemptET env s =
      ({ s with
          cursor := s.cursor + attemptAdvance
          execOrd := s.execOrd + 1
          attemptLog := s.attemptLog ++ [s.attempt_index]
          ops := s.ops ++ attemptOps
          attempt_index := s.attempt_index + 1 }, false) := by
  simp [attemptET, attemptShots, hq.1 s.execOrd, hq.2 s.execOrd, herr]

/-- In a quiet environment the attempt loop of the early-termination
variant runs its whole budget, detects nothing and records nothing. -/
theorem attemptLoopET_quiet {env : Env} (hq : Quiet env) :
    ∀ (a : Nat) (s : KState), s.err = false →
      ∃ s', attemptLoopET env a s = (s', false) ∧ s'.err = false ∧
        s'.attempt_index = s.attempt_index + a ∧
        s'.execOrd = s.execOrd + a ∧
        s'.attemptLog = s.attemptLog ++ List.range' s.attempt_index a ∧
        s'.recoveries = s.recoveries ∧ s'.breaks = s.breaks ∧
        Untouched s s' := by
  intro a
  induction a with
  | zero =>
    intro s herr
    exact ⟨s, by simp [attemptLoopET], herr, by simp, by simp, by simp,
      rfl, rfl, rfl, rfl, rfl, rfl, rfl, rfl, rfl⟩
  | succ a ih =>
    intro s herr
    have hstep := attemptET_quiet hq s herr
    obtain ⟨s', hrun, he, hai, heo, hal, hrec, hbr, hu⟩ :=
      ih { s with
            cursor := s.cursor + attemptAdvance
            execOrd := s.execOrd + 1
            attemptLog := s.attemptLog ++ [s.attempt_index]
            ops := s.ops ++ attemptOps
            attempt_index := s.attempt_index + 1 } herr
    obtain ⟨u1, u2, u3, u4, u5, u6, u7⟩ := hu
    refine ⟨s', ?_, he, ?_, ?_, ?_, hrec, hbr, u1, u2, u3, u4, u5, u6, u7⟩
    · simp only [attemptLoopET, herr, Bool.false_eq_true, if_false, hstep]
      simpa [herr] using hrun
    · simp only [hai]; omega
    · simp only [heo]; omega
    · rw [hal]
      simp only [List.append_assoc]
      rw [List.singleton_append, ← List.range'_succ]

/-- In a quiet environment every cooling cycle runs its full attempt
budget and ends in exactly one recovery retune; nothing is recorded. -/
theorem coolingLoopET_quiet {env : Env} (hq : Quiet env) (A : Nat) :
    ∀ (n : Nat) (s : KState), s.err = false →
      ∃ s', coolingLoopET env A n s = s' ∧ s'.err = false ∧
        s'.attempt_index = s.attempt_index + n * A ∧
        s'.execOrd = s.execOrd + n * A ∧
        s'.attemptLog = s.attemptLog ++ List.range' s.attempt_index (n * A) ∧
        s'.recoveries = s.recoveries + n ∧ s'.breaks = s.breaks ∧
        Untouched s s' := by
  intro n
  induction n with
  | zero =>
    intro s herr
    exact ⟨s, by simp [coolingLoopET], herr, by simp, by simp, by simp,
      by simp, rfl, rfl, rfl, rfl, rfl, rfl, rfl, rfl⟩
  | succ n ih =>
    intro s herr
    obtain ⟨s1, hrun1, he1, hai1, heo1, hal1, hrec1, hbr1, hu1⟩ :=
      attemptLoopET_quiet hq A s herr
    obtain ⟨s2, hrun2, he2, hai2, heo2, hal2, hrec2, hbr2, hu2⟩ :=
      ih (coolingRetune s1) (by simp [coolingRetune, he1])
    obtain ⟨u1, u2, u3, u4, u5, u6, u7⟩ := hu1
    obtain ⟨v1, v2, v3, v4, v5, v6, v7⟩ := hu2
    simp only [coolingRetune, he1, Bool.false_eq_true, if_false] at hai2 heo2 hal2 hrec2 hbr2 v1 v2 v3 v4 v5 v6 v7
    refine ⟨s2, ?_, he2, ?_, ?_, ?_, ?_, ?_, ?_, ?_, ?_, ?_, ?_, ?_, ?_⟩
    · simp only [coolingLoopET, herr, Bool.false_eq_true, if_false, hrun1,
        he1]
      simpa using hrun2
    · rw [hai2, hai1, Nat.succ_mul]; omega
    · rw [heo2, heo1, Nat.succ_mul]; omega
    · rw [hal2, hal1, hai1, List.append_assoc, range'_glue, Nat.succ_mul,
        Nat.add_comm (n * A) A]
    · rw [hrec2, hrec1]; omega
    · rw [hbr2, hbr1]
    · rw [v1, u1]
    · rw [v2, u2]
    · rw [v3, u3]
    · rw [v4, u4]
    · rw [v5, u5]
    · rw [v6, u6]
    · rw [v7, u7]

/-- In a quiet environment a Seq5 big cycle runs all `NC * A` attempts
and all `NC` recovery retunes, recording nothing. -/
theorem bigCycle5_quiet {env : Env} (hq : Quiet env) (NC A : Nat)
    (s : KState) (herr : s.err = false) :
    ∃ s', bigCycle5 env NC A s = s' ∧ s'.err = false ∧
      s'.attempt_index = s.attempt_index + NC * A ∧
      s'.execOrd = s.execOrd + NC * A ∧
      s'.attemptLog = s.attemptLog ++ List.range' s.attempt_index (NC * A) ∧
      s'.recoveries = s.recoveries + NC ∧ Untouched s s' := by
  obtain ⟨s1, hrun1, he1, hai1, heo1, hal1, hrec1, hbr1, hu1⟩ :=
    coolingLoopET_quiet hq A NC (preamble5 env s) (by simp [preamble5, herr])
  obtain ⟨u1, u2, u3, u4, u5, u6, u7⟩ := hu1
  simp only [preamble5, herr, Bool.false_eq_true, if_false] at hai1 heo1 hal1 hrec1 u1 u2 u3 u4 u5 u6 u7
  refine ⟨endBreak env s1, by rw [bigCycle5, hrun1], ?_, ?_, ?_, ?_, ?_,
    ?_, ?_, ?_, ?_, ?_, ?_, ?_⟩ <;>
    simp [endBreak, he1, hai1, heo1, hal1, hrec1, u1, u2, u3, u4, u5, u6, u7]

/-- In a quiet environment a Seq6 big cycle runs all `NC * A` attempts
and all `NC` recovery retunes, recording nothing. -/
theorem bigCycle6_quiet {env : Env} (hq : Quiet env) (NC A : Nat)
    (s : KState) (herr : s.err = false) :
    ∃ s', bigCycle6 env NC A s = s' ∧ s'.err = false ∧
      s'.attempt_index = s.attempt_index + NC * A ∧
      s'.execOrd = s.execOrd + NC * A ∧
      s'.attemptLog = s.attemptLog ++ List.range' s.attempt_index (NC * A) ∧
      s'.recoveries = s.recoveries + NC ∧ Untouched s s' := by
  obtain ⟨s1, hrun1, he1, hai1, heo1, hal1, hrec1, hbr1, hu1⟩ :=
    coolingLoopET_quiet hq A NC (preamble6 env s) (by simp [preamble6, herr])
  obtain ⟨u1, u2, u3, u4, u5, u6, u7⟩ := hu1
  simp only [preamble6, herr, Bool.false_eq_true, if_false] at hai1 heo1 hal1 hrec1 u1 u2 u3 u4 u5 u6 u7
  refine ⟨endBreak env s1, by rw [bigCycle6, hrun1], ?_, ?_, ?_, ?_, ?_,
    ?_, ?_, ?_, ?_, ?_, ?_, ?_⟩ <;>
    simp [endBreak, he1, hai1, heo1, hal1, hrec1, u1, u2, u3, u4, u5, u6, u7]

/-- In a quiet environment the Seq5 big-cycle loop executes the complete
attempt and recovery budget of every big cycle. -/
theorem bigLoop5_quiet {env : Env} (hq : Quiet env) (NC A : Nat) :
    ∀ (B : Nat) (s : KState), s.err = false →
      ∃ s', bigLoop5 env NC A B s = s' ∧ s'.err = false ∧
        s'.attempt_index = s.attempt_index + B * (NC * A) ∧
        s'.execOrd = s.execOrd + B * (NC * A) ∧
        s'.attemptLog = s.attemptLog ++
          List.range' s.attempt_index (B * (NC * A)) ∧
        s'.recoveries = s.recoveries + B * NC ∧ Untouched s s' := by
  intro B
  induction B with
  | zero =>
    intro s herr
    exact ⟨s, by simp [bigLoop5], herr, by simp, by simp, by simp, by simp,
      rfl, rfl, rfl, rfl, rfl, rfl, rfl⟩
  | succ B ih =>
    intro s herr
    obtain ⟨s1, hrun1, he1, hai1, heo1, hal1, hrec1, hu1⟩ :=
      bigCycle5_quiet hq NC A s herr
    obtain ⟨s2, hrun2, he2, hai2, heo2, hal2, hrec2, hu2⟩ := ih s1 he1
    obtain ⟨u1, u2, u3, u4, u5, u6, u7⟩ := hu1
    obtain ⟨v1, v2, v3, v4, v5, v6, v7⟩ := hu2
    refine ⟨s2, by rw [bigLoop5, hrun1, hrun2], he2, ?_, ?_, ?_, ?_,
      ?_, ?_, ?_, ?_, ?_, ?_, ?_⟩
    · rw [hai2, hai1, Nat.succ_mul]; omega
    · rw [heo2, heo1, Nat.succ_mul]; omega
    · rw [hal2, hal1, hai1, List.append_assoc, range'_glue, Nat.succ_mul,
        Nat.add_comm (B * (NC * A)) (NC * A)]
    · rw [hrec2, hrec1, Nat.succ_mul]; omega
    · rw [v1, u1]
    · rw [v2, u2]
    · rw [v3, u3]
    · rw [v4, u4]
    · rw [v5, u5]
    · rw [v6, u6]
    · rw [v7, u7]

/-- In a quiet environment the Seq6 big-cycle loop executes the complete
attempt and recovery budget of every big cycle. -/
theorem bigLoop6_quiet {env : Env} (hq : Quiet env) (NC A : Nat) :
    ∀ (B : Nat) (s : KState), s.err = false →
      ∃ s', bigLoop6 env NC A B s = s' ∧ s'.err = false ∧
        s'.attempt_index = s.attempt_index + B * (NC * A) ∧
        s'.execOrd = s.execOrd + B * (NC * A) ∧
        s'.attemptLog = s.attemptLog ++
          List.range' s.attempt_index (B * (NC * A)) ∧
        s'.recoveries = s.recoveries + B * NC ∧ Untouched s s' := by
  intro B
  induction B with
  | zero =>
    intro s herr
    exact ⟨s, by simp [bigLoop6], herr, by simp, by simp, by simp, by simp,
      rfl, rfl, rfl, rfl, rfl, rfl, rfl⟩
  | succ B ih =>
    intro s herr
    obtain ⟨s1, hrun1, he1, hai1, heo1, hal1, hrec1, hu1⟩ :=
      bigCycle6_quiet hq NC A s herr
    obtain ⟨s2, hrun2, he2, hai2, heo2, hal2, hrec2, hu2⟩ := ih s1 he1
    obtain ⟨u1, u2, u3, u4, u5, u6, u7⟩ := hu1
    obtain ⟨v1, v2, v3, v4, v5, v6, v7⟩ := hu2
    refine ⟨s2, by rw [bigLoop6, hrun1, hrun2], he2, ?_, ?_, ?_, ?_,
      ?_, ?_, ?_, ?_, ?_, ?_, ?_⟩
    · rw [hai2, hai1, Nat.succ_mul]; omega
    · rw [heo2, heo1, Nat.succ_mul]; omega
    · rw [hal2, hal1, hai1, List.append_assoc, range'_glue, Nat.succ_mul,
        Nat.add_comm (B * (NC * A)) (NC * A)]
    · rw [hrec2, hrec1, Nat.succ_mul]; omega
    · rw [v1, u1]
    · rw [v2, u2]
    · rw [v3, u3]
    · rw [v4, u4]
    · rw [v5, u5]
    · rw [v6, u6]
    · rw [v7, u7]

/-- C5: if no edge is ever detected, every cooling cycle of the
early-termination variants (Seq5 and Seq6) runs its full budget of
`attempts_per_cooling` attempts and is followed by exactly one recovery
retune; a chunk of `B` big cycles therefore executes `B * NC * A`
attempts (with `attempt_index` running through `0, 1, ...` without reset)
and `B * NC` recovery retunes, ends with zero records on either channel
and zero tomography records, and raises no error — the next big cycle
always begins with a fresh load phase. -/
theorem C5_quiet_runs_full_budget (env : Env) (B NC A cap : Nat)
    (h0 : ∀ n, env.t0 n = -1) (h1 : ∀ n, env.t1 n = -1) :
    ((runChunk5 env B NC A cap).err = false ∧
     (runChunk5 env B NC A cap).c0 = 0 ∧
     (runChunk5 env B NC A cap).c1 = 0 ∧
     (runChunk5 env B NC A cap).ctomo = 0 ∧
     (runChunk5 env B NC A cap).log0 = [] ∧
     (runChunk5 env B NC A cap).log1 = [] ∧
     (runChunk5 env B NC A cap).logT = [] ∧
     (runChunk5 env B NC A cap).recoveries = B * NC ∧
     (runChunk5 env B NC A cap).attemptLog = List.range (B * NC * A) ∧
     (runChunk5 env B NC A cap).attempt_index = B * NC * A) ∧
    ((runChunk6 env B NC A cap).err = false ∧
     (runChunk6 env B NC A cap).c0 = 0 ∧
     (runChunk6 env B NC A cap).c1 = 0 ∧
     (runChunk6 env B NC A cap).ctomo = 0 ∧
     (runChunk6 env B NC A cap).log0 = [] ∧
     (runChunk6 env B NC A cap).log1 = [] ∧
     (runChunk6 env B NC A cap).logT = [] ∧
     (runChunk6 env B NC A cap).recoveries = B * NC ∧
     (runChunk6 env B NC A cap).attemptLog = List.range (B * NC * A) ∧
     (runChunk6 env B NC A cap).attempt_index = B * NC * A) := by
  have hq : Quiet env := ⟨h0, h1⟩
  constructor
  · obtain ⟨s', hrun, he, hai, heo, hal, hrec, hu⟩ :=
      bigLoop5_quiet hq NC A B (initState env cap) rfl
    obtain ⟨u1, u2, u3, u4, u5, u6, u7⟩ := hu
    rw [runChunk5, hrun]
    simp only [initState] at hai hal hrec u1 u2 u3 u4 u5 u6
    refine ⟨he, by rw [u1], by rw [u2], by rw [u3], by rw [u4], by rw [u5],
      by rw [u6], by rw [hrec]; omega, ?_, by rw [hai, Nat.mul_assoc]; omega⟩
    rw [hal, Nat.mul_assoc, List.range_eq_range']
    simp
  · obtain ⟨s', hrun, he, hai, heo, hal, hrec, hu⟩ :=
      bigLoop6_quiet hq NC A B (initState env cap) rfl
    obtain ⟨u1, u2, u3, u4, u5, u6, u7⟩ := hu
    rw [runChunk6, hrun]
    simp only [initState] at hai hal hrec u1 u2 u3 u4 u5 u6
    refine ⟨he, by rw [u1], by rw [u2], by rw [u3], by rw [u4], by rw [u5],
      by rw [u6], by rw [hrec]; omega, ?_, by rw [hai, Nat.mul_assoc]; omega⟩
    rw [hal, Nat.mul_assoc, List.range_eq_range']
    simp

/-- Witness for C5: one big cycle, two cooling cycles of three attempts,
no edges ever: 6 attempts (indices 0..5), 2 recovery retunes, no records,
no error, in both Seq5 and Seq6. -/
theorem C5_quiet_runs_full_budget_witness :
    ((runChunk5 envQuiet 1 2 3 6).err = false ∧
     (runChunk5 envQuiet 1 2 3 6).c0 = 0 ∧
     (runChunk5 envQuiet 1 2 3 6).c1 = 0 ∧
     (runChunk5 envQuiet 1 2 3 6).ctomo = 0 ∧
     (runChunk5 envQuiet 1 2 3 6).log0 = [] ∧
     (runChunk5 envQuiet 1 2 3 6).log1 = [] ∧
     (runChunk5 envQuiet 1 2 3 6).logT = [] ∧
     (runChunk5 envQuiet 1 2 3 6).recoveries = 2 ∧
     (runChunk5 envQuiet 1 2 3 6).attemptLog = List.range 6 ∧
     (runChunk5 envQuiet 1 2 3 6).attempt_index = 6) ∧
    ((runChunk6 envQuiet 1 2 3 6).err = false ∧
     (runChunk6 envQuiet 1 2 3 6).c0 = 0 ∧
     (runChunk6 envQuiet 1 2 3 6).c1 = 0 ∧
     (runChunk6 envQuiet 1 2 3 6).ctomo = 0 ∧
     (runChunk6 envQuiet 1 2 3 6).log0 = [] ∧
     (runChunk6 envQuiet 1 2 3 6).log1 = [] ∧
     (runChunk6 envQuiet 1 2 3 6).logT = [] ∧
     (runChunk6 envQuiet 1 2 3 6).recoveries = 2 ∧
     (runChunk6 envQuiet 1 2 3 6).attemptLog = List.range 6 ∧
     (runChunk6 envQuiet 1 2 3 6).attempt_index = 6) :=
  C5_quiet_runs_full_budget envQuiet 1 2 3 6 (fun _ => rfl) (fun _ => rfl)

/-! ### Claim C3: first detection on the second attempt -/

/-- If the first attempt reads no edge and the second reads an edge on
ttl0 only, the early-termination attempt loop (budget at least 2) stops
after exactly two attempts: the second attempt's detection is recorded
with the incremented `attempt_index`, one tomography record is written
with the cursor value reached right after the second attempt's gates —
i.e. immediately before the tomography pulse — and the loop reports a
detection. -/
theorem attemptLoopET_detect_second (env : Env) (a : Nat) (s : KState)
    (herr : s.err = false)
    (h00 : env.t0 s.execOrd = -1) (h10 : env.t1 s.execOrd = -1)
    (h01 : env.t0 (s.execOrd + 1) ≠ -1) (h11 : env.t1 (s.execOrd + 1) = -1)
    (hc0 : s.c0 < s.cap) (hcT : s.ctomo < s.cap) :
    attemptLoopET env (a + 2) s =
      ({ s with
          attempt_index := s.attempt_index + 1
          t0times := s.t0times.set s.c0 (env.t0 (s.execOrd + 1))
          t0attempts := s.t0attempts.set s.c0 (Int.ofNat (s.attempt_index + 1))
          c0 := s.c0 + 1
          tomoTimes := s.tomoTimes.set s.ctomo
            (s.cursor + attemptAdvance + attemptAdvance)
          tomoAttempts := s.tomoAttempts.set s.ctomo
            (Int.ofNat (s.attempt_index + 1))
          ctomo := s.ctomo + 1
          cursor := s.cursor + attemptAdvance + attemptAdvance + tomoAdvance
          execOrd := s.execOrd + 1 + 1
          attemptLog := s.attemptLog ++ [s.attempt_index] ++
            [s.attempt_index + 1]
          log0 := s.log0 ++
            [(env.t0 (s.execOrd + 1), Int.ofNat (s.attempt_index + 1))]
          logT := s.logT ++
            [(s.cursor + attemptAdvance + attemptAdvance,
              Int.ofNat (s.attempt_index + 1))]
          ops := s.ops ++ attemptOps ++ attemptOps ++ tomoOps }, true) := by
  have hcT2 : s.ctomo < s.cap := hcT
  simp [attemptLoopET, attemptET, attemptShots, write0, write1, writeTomo,
    herr, h00, h10, h01, h11, hc0, hcT2]

/-- C3: in early-termination mode, if the first detected edge of the
first big cycle arrives on ttl0 at the second attempt of the first
cooling cycle, then exactly two attempts execute in that big cycle
(attempt indices 0 and 1), exactly one EventRecord is logged for ttl0
with `attempt_index = 1` (0-based) and none for ttl1, exactly one
tomography record is appended whose timestamp is the timeline-cursor
value immediately preceding the tomography pulse (preamble cursor plus
two attempt advances), no recovery retune runs, no error is raised, and
the big cycle ends (control proceeds to the next big cycle) — in both
Seq5 and Seq6, whose preamble cursors differ only in how the MOT load is
waited out. -/
theorem C3_detection_on_second_attempt (env : Env) (NC A cap : Nat)
    (hNC : 1 ≤ NC) (hA : 2 ≤ A) (hcap : 0 < cap)
    (h00 : env.t0 0 = -1) (h10 : env.t1 0 = -1)
    (h01 : env.t0 1 ≠ -1) (h11 : env.t1 1 = -1) :
    ((bigCycle5 env NC A (initState env cap)).attemptLog = [0, 1] ∧
     (bigCycle5 env NC A (initState env cap)).log0 = [(env.t0 1, 1)] ∧
     (bigCycle5 env NC A (initState env cap)).log1 = [] ∧
     (bigCycle5 env NC A (initState env cap)).logT =
       [(env.slack 1 + motLoadTime + atomLoadTime +
           attemptAdvance + attemptAdvance, 1)] ∧
     (bigCycle5 env NC A (initState env cap)).c0 = 1 ∧
     (bigCycle5 env NC A (initState env cap)).c1 = 0 ∧
     (bigCycle5 env NC A (initState env cap)).ctomo = 1 ∧
     (bigCycle5 env NC A (initState env cap)).recoveries = 0 ∧
     (bigCycle5 env NC A (initState env cap)).err = false) ∧
    ((bigCycle6 env NC A (initState env cap)).attemptLog = [0, 1] ∧
     (bigCycle6 env NC A (initState env cap)).log0 = [(env.t0 1, 1)] ∧
     (bigCycle6 env NC A (initState env cap)).log1 = [] ∧
     (bigCycle6 env NC A (initState env cap)).logT =
       [(env.slack 3 + atomLoadTime + attemptAdvance + attemptAdvance, 1)] ∧
     (bigCycle6 env NC A (initState env cap)).c0 = 1 ∧
     (bigCycle6 env NC A (initState env cap)).c1 = 0 ∧
     (bigCycle6 env NC A (initState env cap)).ctomo = 1 ∧
     (bigCycle6 env NC A (initState env cap)).recoveries = 0 ∧
     (bigCycle6 env NC A (initState env cap)).err = false) := by
  obtain ⟨a, rfl⟩ : ∃ a, A = a + 2 := ⟨A - 2, by omega⟩
  obtain ⟨n, rfl⟩ : ∃ n, NC = n + 1 := ⟨NC - 1, by omega⟩
  constructor
  · have key := attemptLoopET_detect_second env a
      (preamble5 env (initState env cap))
      (by simp [preamble5, initState])
      (by simpa [preamble5, initState] using h00)
      (by simpa [preamble5, initState] using h10)
      (by simpa [preamble5, initState] using h01)
      (by simpa [preamble5, initState] using h11)
      (by simpa [preamble5, initState] using hcap)
      (by simpa [preamble5, initState] using hcap)
    simp [preamble5, initState] at key
    refine ⟨?_, ?_, ?_, ?_, ?_, ?_, ?_, ?_, ?_⟩ <;>
      simp [bigCycle5, coolingLoopET, endBreak, preamble5, initState, key]
  · have key := attemptLoopET_detect_second env a
      (preamble6 env (initState env cap))
      (by simp [preamble6, initState])
      (by simpa [preamble6, initState] using h00)
      (by simpa [preamble6, initState] using h10)
      (by simpa [preamble6, initState] using h01)
      (by simpa [preamble6, initState] using h11)
      (by simpa [preamble6, initState] using hcap)
      (by simpa [preamble6, initState] using hcap)
    simp [preamble6, initState] at key
    refine ⟨?_, ?_, ?_, ?_, ?_, ?_, ?_, ?_, ?_⟩ <;>
      simp [bigCycle6, coolingLoopET, endBreak, preamble6, initState, key]

/-- Witness for C3: a single edge with timestamp 9 on ttl0 at attempt
ordinal 1, one cooling cycle of two attempts, capacity 6. -/
theorem C3_detection_on_second_attempt_witness :
    (bigCycle5 envOne 1 2 (initState envOne 6)).attemptLog = [0, 1] ∧
    (bigCycle5 envOne 1 2 (initState envOne 6)).log0 = [(9, 1)] ∧
    (bigCycle5 envOne 1 2 (initState envOne 6)).ctomo = 1 ∧
    (bigCycle5 envOne 1 2 (initState envOne 6)).recoveries = 0 ∧
    (bigCycle6 envOne 1 2 (initState envOne 6)).logT =
      [(atomLoadTime + attemptAdvance + attemptAdvance, 1)] := by
  have h := C3_detection_on_second_attempt envOne 1 2 6 (by decide)
    (by decide) (by decide) (by decide) (by decide) (by decide) (by decide)
  refine ⟨h.1.1, ?_, h.1.2.2.2.2.2.2.1, h.1.2.2.2.2.2.2.2.1, ?_⟩
  · have h2 := h.1.2.1
    simpa [envOne] using h2
  · have h2 := h.2.2.2.2.1
    simpa [envOne] using h2

/-! ### Claim C7: simultaneous detections on both channels -/

/-- C7: if both input channels read an edge on the same attempt of the
early-termination variant, both detections are appended — each to its own
per-channel log — in that same attempt, and both records carry the same
`attempt_index`; the attempt counts as a single detection for the
enclosing cooling cycle: the attempt loop stops with one detection flag,
a single tomography record is appended, and the cooling-cycle loop ends
without running any further attempt or any recovery retune. -/
theorem C7_both_channels_one_attempt (env : Env) (s : KState) (a n : Nat)
    (herr : s.err = false)
    (h0 : env.t0 s.execOrd ≠ -1) (h1 : env.t1 s.execOrd ≠ -1)
    (hc0 : s.c0 < s.cap) (hc1 : s.c1 < s.cap) (hcT : s.ctomo < s.cap) :
    (attemptET env s).2 = true ∧
    (attemptET env s).1.log0 =
      s.log0 ++ [(env.t0 s.execOrd, Int.ofNat s.attempt_index)] ∧
    (attemptET env s).1.log1 =
      s.log1 ++ [(env.t1 s.execOrd, Int.ofNat s.attempt_index)] ∧
    (attemptET env s).1.logT =
      s.logT ++ [(s.cursor + attemptAdvance, Int.ofNat s.attempt_index)] ∧
    (attemptET env s).1.c0 = s.c0 + 1 ∧
    (attemptET env s).1.c1 = s.c1 + 1 ∧
    (attemptET env s).1.attemptLog = s.attemptLog ++ [s.attempt_index] ∧
    (attemptET env s).1.recoveries = s.recoveries ∧
    (attemptET env s).1.err = false ∧
    attemptLoopET env (a + 1) s = ((attemptET env s).1, true) ∧
    coolingLoopET env (a + 1) (n + 1) s = (attemptET env s).1 := by
  have hkey : attemptET env s =
      ({ s with
          t0times := s.t0times.set s.c0 (env.t0 s.execOrd)
          t0attempts := s.t0attempts.set s.c0 (Int.ofNat s.attempt_index)
          c0 := s.c0 + 1
          t1times := s.t1times.set s.c1 (env.t1 s.execOrd)
          t1attempts := s.t1attempts.set s.c1 (Int.ofNat s.attempt_index)
          c1 := s.c1 + 1
          tomoTimes := s.tomoTimes.set s.ctomo (s.cursor + attemptAdvance)
          tomoAttempts := s.tomoAttempts.set s.ctomo
            (Int.ofNat s.attempt_index)
          ctomo := s.ctomo + 1
          cursor := s.cursor + attemptAdvance + tomoAdvance
          execOrd := s.execOrd + 1
          attemptLog := s.attemptLog ++ [s.attempt_index]
          log0 := s.log0 ++ [(env.t0 s.execOrd, Int.ofNat s.attempt_index)]
          log1 := s.log1 ++ [(env.t1 s.execOrd, Int.ofNat s.attempt_index)]
          logT := s.logT ++
            [(s.cursor + attemptAdvance, Int.ofNat s.attempt_index)]
          ops := s.ops ++ attemptOps ++ tomoOps }, true) := by
    simp [attemptET, attemptShots, write0, write1, writeTomo, herr, h0, h1,
      hc0, hc1, hcT]
  refine ⟨by rw [hkey], by rw [hkey], by rw [hkey], by rw [hkey],
    by rw [hkey], by rw [hkey], by rw [hkey], by rw [hkey], ?_, ?_, ?_⟩
  · rw [hkey]
    exact herr
  · simp [attemptLoopET, hkey, herr]
  · simp [coolingLoopET, attemptLoopET, hkey, herr]

/-- Witness for C7: both channels detect (timestamps 7 and 8) on the
first attempt from the initial state with capacity 4. -/
theorem C7_both_channels_one_attempt_witness :
    (attemptET envBoth (initState envBoth 4)).2 = true ∧
    (attemptET envBoth (initState envBoth 4)).1.log0 = [(7, 0)] ∧
    (attemptET envBoth (initState envBoth 4)).1.log1 = [(8, 0)] ∧
    (attemptET envBoth (initState envBoth 4)).1.c0 = 1 ∧
    (attemptET envBoth (initState envBoth 4)).1.c1 = 1 ∧
    attemptLoopET envBoth 3 (initState envBoth 4) =
      ((attemptET envBoth (initState envBoth 4)).1, true) ∧
    coolingLoopET envBoth 3 2 (initState envBoth 4) =
      (attemptET envBoth (initState envBoth 4)).1 := by
  have h := C7_both_channels_one_attempt envBoth (initState envBoth 4) 2 1
    (by decide) (by decide) (by decide) (by decide) (by decide) (by decide)
  refine ⟨h.1, ?_, ?_, h.2.2.2.2.1, h.2.2.2.2.2.1, h.2.2.2.2.2.2.2.2.2.1,
    h.2.2.2.2.2.2.2.2.2.2⟩
  · have h2 := h.2.1
    simpa [envBoth, initState] using h2
  · have h2 := h.2.2.1
    simpa [envBoth, initState] using h2

/-! ### Claim C9: the host wait is always followed by a slack insertion -/

/-- A wait-free trace trivially satisfies the resynchronization
property. -/
theorem noWait_waitOk : ∀ l : List KOp, noWait l = true → waitOk l = true := by
  intro l
  induction l with
  | nil => intro _; rfl
  | cons x r ih =>
    intro h
    have hx : x ≠ KOp.hostWait := by
      have := (List.all_eq_true.mp h) x (by simp)
      simpa using this
    have hr : noWait r = true := by
      apply List.all_eq_true.mpr
      intro y hy
      exact (List.all_eq_true.mp h) y (by simp [hy])
    cases x with
    | timed => simpa [waitOk] using ih hr
    | breakRT => simpa [waitOk] using ih hr
    | hostWait => exact absurd rfl hx

/-- A wait-free trace does not end in the host wait. -/
theorem noWait_getLast (l : List KOp) (h : noWait l = true) :
    l.getLast? ≠ some KOp.hostWait := by
  intro hc
  obtain ⟨ys, rfl⟩ := List.getLast?_eq_some_iff.mp hc
  simp [noWait, List.all_append] at h

/-- Appending a trace that satisfies the resynchronization property to
one that satisfies it and does not end in the host wait preserves the
property. -/
theorem waitOk_append (b : List KOp) (hb : waitOk b = true) :
    ∀ a : List KOp, waitOk a = true → a.getLast? ≠ some KOp.hostWait →
      waitOk (a ++ b) = true := by
  intro a
  induction a with
  | nil => intro _ _; simpa using hb
  | cons x r ih =>
    intro ha hl
    have hlr : r ≠ [] → r.getLast? ≠ some KOp.hostWait := by
      intro hne
      cases r with
      | nil => simp at hne
      | cons y t => simpa [List.getLast?_cons_cons] using hl
    cases x with
    | timed =>
      have hr : waitOk r = true := by simpa [waitOk] using ha
      cases r with
      | nil => simpa [waitOk] using hb
      | cons y t =>
        have := ih hr (hlr (by simp))
        simpa [waitOk] using this
    | breakRT =>
      have hr : waitOk r = true := by simpa [waitOk] using ha
      cases r with
      | nil => simpa [waitOk] using hb
      | cons y t =>
        have := ih hr (hlr (by simp))
        simpa [waitOk] using this
    | hostWait =>
      cases r with
      | nil => simp [waitOk] at ha
      | cons y t =>
        cases y with
        | timed => simp [waitOk] at ha
        | hostWait => simp [waitOk] at ha
        | breakRT =>
          have hr : waitOk (KOp.breakRT :: t) = true := by
            simpa [waitOk] using ha
          have := ih hr (hlr (by simp))
          simpa [waitOk] using this

/-- Extending a resynchronization-correct trace that does not end in the
host wait by another such trace yields another one. -/
theorem wk_extend (x d : List KOp) (hx1 : waitOk x = true)
    (hx2 : x.getLast? ≠ some KOp.hostWait) (hd1 : waitOk d = true)
    (hd2 : d.getLast? ≠ some KOp.hostWait) :
    waitOk (x ++ d) = true ∧ (x ++ d).getLast? ≠ some KOp.hostWait := by
  refine ⟨waitOk_append d hd1 x hx1 hx2, ?_⟩
  rw [List.getLast?_append]
  cases hgl : d.getLast? with
  | none => simpa [hgl] using hx2
  | some y =>
    rw [hgl] at hd2
    simpa [hgl] using hd2

/-- The three log writes never touch the scheduling trace. -/
theorem write0_ops (s : KState) (t : Int) : (write0 s t).ops = s.ops := by
  rw [write0]; split <;> rfl

/-- The three log writes never touch the scheduling trace. -/
theorem write1_ops (s : KState) (t : Int) : (write1 s t).ops = s.ops := by
  rw [write1]; split <;> rfl

/-- The three log writes never touch the scheduling trace. -/
theorem writeTomo_ops (s : KState) : (writeTomo s).ops = s.ops := by
  rw [writeTomo]; split <;> rfl

/-- The scheduling operations appended by one early-termination attempt
are one of three wait-free blocks. -/
theorem attemptET_ops_cases (env : Env) (s : KState) :
    (attemptET env s).1.ops = s.ops ∨
    (attemptET env s).1.ops = s.ops ++ attemptOps ∨
    (attemptET env s).1.ops = s.ops ++ (attemptOps ++ tomoOps) := by
  by_cases he : s.err = true
  · left; simp [attemptET, he]
  · simp only [attemptET, he, Bool.false_eq_true, if_false]
    repeat' split
    all_goals simp [write0_ops, write1_ops, writeTomo_ops, attemptShots]

/-- One early-termination attempt only appends wait-free operations. -/
theorem attemptET_opsExt (env : Env) (s : KState) :
    ∃ d, (attemptET env s).1.ops = s.ops ++ d ∧ noWait d = true := by
  obtain h | h | h := attemptET_ops_cases env s
  · exact ⟨[], by simp [h], rfl⟩
  · exact ⟨attemptOps, h, by decide⟩
  · exact ⟨attemptOps ++ tomoOps, h, by decide⟩

/-- The early-termination attempt loop only appends wait-free
operations. -/
theorem attemptLoopET_opsExt (env : Env) :
    ∀ (a : Nat) (s : KState),
      ∃ d, (attemptLoopET env a s).1.ops = s.ops ++ d ∧ noWait d = true := by
  intro a
  induction a with
  | zero => intro s; exact ⟨[], by simp [attemptLoopET], rfl⟩
  | succ a ih =>
    intro s
    obtain ⟨d1, hd1, hn1⟩ := attemptET_opsExt env s
    obtain ⟨d2, hd2, hn2⟩ := ih (attemptET env s).1
    by_cases he : s.err = true
    · exact ⟨[], by simp [attemptLoopET, he], rfl⟩
    · simp only [attemptLoopET, he, Bool.false_eq_true, if_false]
      split
      · exact ⟨d1, hd1, hn1⟩
      · split
        · exact ⟨d1, hd1, hn1⟩
        · refine ⟨d1 ++ d2, ?_, ?_⟩
          · rw [hd2, hd1, List.append_assoc]
          · simp only [noWait, List.all_append] at hn1 hn2 ⊢
            rw [hn1, hn2]; rfl

/-- The cooling retune only appends wait-free operations. -/
theorem coolingRetune_opsExt (s : KState) :
    ∃ d, (coolingRetune s).ops = s.ops ++ d ∧ noWait d = true := by
  rw [coolingRetune]
  split
  · exact ⟨[], by simp, rfl⟩
  · exact ⟨retuneOps, by simp, by decide⟩

/-- The early-termination cooling loop only appends wait-free
operations. -/
theorem coolingLoopET_opsExt (env : Env) (A : Nat) :
    ∀ (n : Nat) (s : KState),
      ∃ d, (coolingLoopET env A n s).ops = s.ops ++ d ∧ noWait d = true := by
  intro n
  induction n with
  | zero => intro s; exact ⟨[], by simp [coolingLoopET], rfl⟩
  | succ n ih =>
    intro s
    obtain ⟨d1, hd1, hn1⟩ := attemptLoopET_opsExt env A s
    obtain ⟨d2, hd2, hn2⟩ := coolingRetune_opsExt (attemptLoopET env A s).1
    obtain ⟨d3, hd3, hn3⟩ := ih (coolingRetune (attemptLoopET env A s).1)
    by_cases he : s.err = true
    · exact ⟨[], by simp [coolingLoopET, he], rfl⟩
    · simp only [coolingLoopET, he, Bool.false_eq_true, if_false]
      split
      · exact ⟨d1, hd1, hn1⟩
      · split
        · exact ⟨d1, hd1, hn1⟩
        · refine ⟨d1 ++ (d2 ++ d3), ?_, ?_⟩
          · rw [hd3, hd2, hd1]
            simp [List.append_assoc]
          · simp only [noWait, List.all_append] at hn1 hn2 hn3 ⊢
            rw [hn1, hn2, hn3]; rfl

/-- The scheduling operations appended by one exhaust-all attempt form a
wait-free block. -/
theorem attempt7_ops_cases (env : Env) (s : KState) :
    (attempt7 env s).ops = s.ops ∨
    (attempt7 env s).ops = s.ops ++ attemptOps := by
  by_cases he : s.err = true
  · left; simp [attempt7, he]
  · simp only [attempt7, he, Bool.false_eq_true, if_false]
    repeat' split
    all_goals simp [write0_ops, write1_ops, writeTomo_ops, attemptShots]

/-- One exhaust-all attempt only appends wait-free operations. -/
theorem attempt7_opsExt (env : Env) (s : KState) :
    ∃ d, (attempt7 env s).ops = s.ops ++ d ∧ noWait d = true := by
  obtain h | h := attempt7_ops_cases env s
  · exact ⟨[], by simp [h], rfl⟩
  · exact ⟨attemptOps, h, by decide⟩

/-- The exhaust-all attempt loop only appends wait-free operations. -/
theorem attemptLoop7_opsExt (env : Env) :
    ∀ (a : Nat) (s : KState),
      ∃ d, (attemptLoop7 env a s).ops = s.ops ++ d ∧ noWait d = true := by
  intro a
  induction a with
  | zero => intro s; exact ⟨[], by simp [attemptLoop7], rfl⟩
  | succ a ih =>
    intro s
    obtain ⟨d1, hd1, hn1⟩ := attempt7_opsExt env s
    obtain ⟨d2, hd2, hn2⟩ := ih (attempt7 env s)
    by_cases he : s.err = true
    · exact ⟨[], by simp [attemptLoop7, he], rfl⟩
    · simp only [attemptLoop7, he, Bool.false_eq_true, if_false]
      refine ⟨d1 ++ d2, ?_, ?_⟩
      · rw [hd2, hd1, List.append_assoc]
      · simp only [noWait, List.all_append] at hn1 hn2 ⊢
        rw [hn1, hn2]; rfl

/-- The exhaust-all cooling loop only appends wait-free operations. -/
theorem coolingLoop7_opsExt (env : Env) (A : Nat) :
    ∀ (n : Nat) (s : KState),
      ∃ d, (coolingLoop7 env A n s).ops = s.ops ++ d ∧ noWait d = true := by
  intro n
  induction n with
  | zero => intro s; exact ⟨[], by simp [coolingLoop7], rfl⟩
  | succ n ih =>
    intro s
    obtain ⟨d1, hd1, hn1⟩ := attemptLoop7_opsExt env A s
    obtain ⟨d2, hd2, hn2⟩ := coolingRetune_opsExt (attemptLoop7 env A s)
    obtain ⟨d3, hd3, hn3⟩ := ih (coolingRetune (attemptLoop7 env A s))
    by_cases he : s.err = true
    · exact ⟨[], by simp [coolingLoop7, he], rfl⟩
    · simp only [coolingLoop7, he, Bool.false_eq_true, if_false]
      refine ⟨d1 ++ (d2 ++ d3), ?_, ?_⟩
      · rw [hd3, hd2, hd1]
        simp [List.append_assoc]
      · simp only [noWait, List.all_append] at hn1 hn2 hn3 ⊢
        rw [hn1, hn2, hn3]; rfl

/-- The preamble shared by Seq6 and Seq7 preserves the resynchronization
property: its own trace has the host wait immediately followed by
`break_realtime`, and it ends in a timed operation. -/
theorem preamble6_wk (env : Env) (s : KState)
    (h1 : waitOk s.ops = true) (h2 : s.ops.getLast? ≠ some KOp.hostWait) :
    waitOk (preamble6 env s).ops = true ∧
    (preamble6 env s).ops.getLast? ≠ some KOp.hostWait := by
  rw [preamble6]
  split
  · exact ⟨h1, h2⟩
  · exact wk_extend s.ops preamble6Ops h1 h2 (by decide) (by decide)

/-- The closing `break_realtime` of a big cycle preserves the
resynchronization property. -/
theorem endBreak_wk (env : Env) (s : KState)
    (h1 : waitOk s.ops = true) (h2 : s.ops.getLast? ≠ some KOp.hostWait) :
    waitOk (endBreak env s).ops = true ∧
    (endBreak env s).ops.getLast? ≠ some KOp.hostWait := by
  rw [endBreak]
  split
  · exact ⟨h1, h2⟩
  · exact wk_extend s.ops [KOp.breakRT] h1 h2 (by decide) (by decide)

/-- A Seq6 big cycle preserves the resynchronization property of the
scheduling trace. -/
theorem bigCycle6_wk (env : Env) (NC A : Nat) (s : KState)
    (h1 : waitOk s.ops = true) (h2 : s.ops.getLast? ≠ some KOp.hostWait) :
    waitOk (bigCycle6 env NC A s).ops = true ∧
    (bigCycle6 env NC A s).ops.getLast? ≠ some KOp.hostWait := by
  obtain ⟨p1, p2⟩ := preamble6_wk env s h1 h2
  obtain ⟨d, hd, hnw⟩ := coolingLoopET_opsExt env A NC (preamble6 env s)
  have hc := wk_extend (preamble6 env s).ops d p1 p2 (noWait_waitOk d hnw)
    (noWait_getLast d hnw)
  rw [← hd] at hc
  rw [bigCycle6]
  exact endBreak_wk env (coolingLoopET env A NC (preamble6 env s)) hc.1 hc.2

/-- A Seq7 big cycle preserves the resynchronization property of the
scheduling trace. -/
theorem bigCycle7_wk (env : Env) (NC A : Nat) (s : KState)
    (h1 : waitOk s.ops = true) (h2 : s.ops.getLast? ≠ some KOp.hostWait) :
    waitOk (bigCycle7 env NC A s).ops = true ∧
    (bigCycle7 env NC A s).ops.getLast? ≠ some KOp.hostWait := by
  obtain ⟨p1, p2⟩ := preamble6_wk env s h1 h2
  obtain ⟨d, hd, hnw⟩ := coolingLoop7_opsExt env A NC (preamble6 env s)
  have hc := wk_extend (preamble6 env s).ops d p1 p2 (noWait_waitOk d hnw)
    (noWait_getLast d hnw)
  rw [← hd] at hc
  rw [bigCycle7]
  exact endBreak_wk env (coolingLoop7 env A NC (preamble6 env s)) hc.1 hc.2

/-- The Seq6 big-cycle loop preserves the resynchronization property. -/
theorem bigLoop6_wk (env : Env) (NC A : Nat) :
    ∀ (B : Nat) (s : KState), waitOk s.ops = true →
      s.ops.getLast? ≠ some KOp.hostWait →
      waitOk (bigLoop6 env NC A B s).ops = true ∧
      (bigLoop6 env NC A B s).ops.getLast? ≠ some KOp.hostWait := by
  intro B
  induction B with
  | zero => intro s h1 h2; exact ⟨by simpa [bigLoop6] using h1, by
      simpa [bigLoop6] using h2⟩
  | succ B ih =>
    intro s h1 h2
    obtain ⟨k1, k2⟩ := bigCycle6_wk env NC A s h1 h2
    simpa [bigLoop6] using ih (bigCycle6 env NC A s) k1 k2

/-- The Seq7 big-cycle loop preserves the resynchronization property. -/
theorem bigLoop7_wk (env : Env) (NC A : Nat) :
    ∀ (B : Nat) (s : KState), waitOk s.ops = true →
      s.ops.getLast? ≠ some KOp.hostWait →
      waitOk (bigLoop7 env NC A B s).ops = true ∧
      (bigLoop7 env NC A B s).ops.getLast? ≠ some KOp.hostWait := by
  intro B
  induction B with
  | zero => intro s h1 h2; exact ⟨by simpa [bigLoop7] using h1, by
      simpa [bigLoop7] using h2⟩
  | succ B ih =>
    intro s h1 h2
    obtain ⟨k1, k2⟩ := bigCycle7_wk env NC A s h1 h2
    simpa [bigLoop7] using ih (bigCycle7 env NC A s) k1 k2

/-- C9: in every variant that performs the synchronous host-side
`host_mot_load_wait` RPC from the real-time context (Seq6 and Seq7), the
wait is immediately followed in the scheduling trace by a
`break_realtime` slack insertion, before any subsequent timed operation
is scheduled — for every configuration and every environment. -/
theorem C9_host_wait_always_resynced (env : Env) (B NC A cap : Nat) :
    waitOk (runChunk6 env B NC A cap).ops = true ∧
    waitOk (runChunk7 env B NC A cap).ops = true := by
  constructor
  · exact (bigLoop6_wk env NC A B (initState env cap) rfl
      (by simp [initState, List.getLast?_cons_cons])).1
  · exact (bigLoop7_wk env NC A B (initState env cap) rfl
      (by simp [initState, List.getLast?_cons_cons])).1

/-! ### Claim C6: draining returns exactly the recorded prefix -/

/-- Buffer invariant: all six buffers keep their allocated length, each
count equals the length of the corresponding ghost record list and stays
within capacity, and the used prefix of each (times, attempts) buffer
pair is exactly the ghost record list — no slot at an index at or beyond
the count holds a record. -/
structure InvL (s : KState) : Prop where
  l0t : s.t0times.length = s.cap
  l0a : s.t0attempts.length = s.cap
  l1t : s.t1times.length = s.cap
  l1a : s.t1attempts.length = s.cap
  lTt : s.tomoTimes.length = s.cap
  lTa : s.tomoAttempts.length = s.cap
  n0 : s.c0 = s.log0.length
  b0 : s.c0 ≤ s.cap
  n1 : s.c1 = s.log1.length
  b1 : s.c1 ≤ s.cap
  nT : s.ctomo = s.logT.length
  bT : s.ctomo ≤ s.cap
  z0 : (s.t0times.take s.c0).zip (s.t0attempts.take s.c0) = s.log0
  z1 : (s.t1times.take s.c1).zip (s.t1attempts.take s.c1) = s.log1
  zT : (s.tomoTimes.take s.ctomo).zip (s.tomoAttempts.take s.ctomo) = s.logT

/-- A bounds-checked write extends the used prefix of a buffer pair by
exactly the written record. -/
theorem take_zip_snoc (x y : List Int) (c cap : Nat)
    (hx : x.length = cap) (hy : y.length = cap) (hc : c < cap)
    (v w : Int) (l : List (Int × Int))
    (hzip : (x.take c).zip (y.take c) = l) :
    ((x.set c v).take (c + 1)).zip ((y.set c w).take (c + 1)) =
      l ++ [(v, w)] := by
  rw [take_set_snoc x c v (by rw [hx]; exact hc),
    take_set_snoc y c w (by rw [hy]; exact hc),
    zip_snoc _ _ _ _ (by simp [List.length_take, hx, hy]), hzip]

/-- The ttl0 write preserves the buffer invariant. -/
theorem write0_InvL (s : KState) (t : Int) (h : InvL s) :
    InvL (write0 s t) := by
  rw [write0]
  split
  case isTrue hlt =>
    obtain ⟨l0t, l0a, l1t, l1a, lTt, lTa, n0, b0, n1, b1, nT, bT, z0, z1,
      zT⟩ := h
    exact ⟨by simpa using l0t, by simpa using l0a, l1t, l1a, lTt, lTa,
      by simpa using n0, by simpa using hlt, n1, b1, nT, bT,
      by simpa using take_zip_snoc _ _ _ _ l0t l0a hlt _ _ _ z0, z1, zT⟩
  case isFalse =>
    exact ⟨h.l0t, h.l0a, h.l1t, h.l1a, h.lTt, h.lTa, h.n0, h.b0, h.n1,
      h.b1, h.nT, h.bT, h.z0, h.z1, h.zT⟩

/-- The ttl1 write preserves the buffer invariant. -/
theorem write1_InvL (s : KState) (t : Int) (h : InvL s) :
    InvL (write1 s t) := by
  rw [write1]
  split
  case isTrue hlt =>
    obtain ⟨l0t, l0a, l1t, l1a, lTt, lTa, n0, b0, n1, b1, nT, bT, z0, z1,
      zT⟩ := h
    exact ⟨l0t, l0a, by simpa using l1t, by simpa using l1a, lTt, lTa,
      n0, b0, by simpa using n1, by simpa using hlt, nT, bT, z0,
      by simpa using take_zip_snoc _ _ _ _ l1t l1a hlt _ _ _ z1, zT⟩
  case isFalse =>
    exact ⟨h.l0t, h.l0a, h.l1t, h.l1a, h.lTt, h.lTa, h.n0, h.b0, h.n1,
      h.b1, h.nT, h.bT, h.z0, h.z1, h.zT⟩

/-- The tomography write preserves the buffer invariant. -/
theorem writeTomo_InvL (s : KState) (h : InvL s) :
    InvL (writeTomo s) := by
  rw [writeTomo]
  split
  case isTrue hlt =>
    obtain ⟨l0t, l0a, l1t, l1a, lTt, lTa, n0, b0, n1, b1, nT, bT, z0, z1,
      zT⟩ := h
    exact ⟨l0t, l0a, l1t, l1a, by simpa using lTt, by simpa using lTa,
      n0, b0, n1, b1, by simpa using nT, by simpa using hlt, z0,
      z1, by simpa using take_zip_snoc _ _ _ _ lTt lTa hlt _ _ _ zT⟩
  case isFalse =>
    exact ⟨h.l0t, h.l0a, h.l1t, h.l1a, h.lTt, h.lTa, h.n0, h.b0, h.n1,
      h.b1, h.nT, h.bT, h.z0, h.z1, h.zT⟩

/-- Updates that only touch cursor, trace or control ghost fields keep
the buffer invariant, fieldwise. -/
theorem attemptShots_InvL (s : KState) (h : InvL s) :
    InvL (attemptShots s) :=
  ⟨h.l0t, h.l0a, h.l1t, h.l1a, h.lTt, h.lTa, h.n0, h.b0, h.n1, h.b1,
   h.nT, h.bT, h.z0, h.z1, h.zT⟩

set_option maxHeartbeats 2000000 in
/-- One early-termination attempt preserves the buffer invariant. -/
theorem attemptET_InvL (env : Env) (s : KState) (h : InvL s) :
    InvL (attemptET env s).1 := by
  by_cases he : s.err = true
  · simpa [attemptET, he] using h
  · simp only [attemptET, he, Bool.false_eq_true, if_false]
    have W0 := attemptShots_InvL s h
    have W1 := write0_InvL _ (env.t0 s.execOrd) W0
    have W2 := write1_InvL _ (env.t1 s.execOrd) W1
    have W3 := write1_InvL _ (env.t1 s.execOrd) W0
    have V0 := writeTomo_InvL _ W0
    have V1 := writeTomo_InvL _ W1
    have V2 := writeTomo_InvL _ W2
    have V3 := writeTomo_InvL _ W3
    repeat' split
    all_goals
      first
      | exact ⟨W0.l0t, W0.l0a, W0.l1t, W0.l1a, W0.lTt, W0.lTa, W0.n0,
          W0.b0, W0.n1, W0.b1, W0.nT, W0.bT, W0.z0, W0.z1, W0.zT⟩
      | exact ⟨W1.l0t, W1.l0a, W1.l1t, W1.l1a, W1.lTt, W1.lTa, W1.n0,
          W1.b0, W1.n1, W1.b1, W1.nT, W1.bT, W1.z0, W1.z1, W1.zT⟩
      | exact ⟨W2.l0t, W2.l0a, W2.l1t, W2.l1a, W2.lTt, W2.lTa, W2.n0,
          W2.b0, W2.n1, W2.b1, W2.nT, W2.bT, W2.z0, W2.z1, W2.zT⟩
      | exact ⟨W3.l0t, W3.l0a, W3.l1t, W3.l1a, W3.lTt, W3.lTa, W3.n0,
          W3.b0, W3.n1, W3.b1, W3.nT, W3.bT, W3.z0, W3.z1, W3.zT⟩
      | exact ⟨V0.l0t, V0.l0a, V0.l1t, V0.l1a, V0.lTt, V0.lTa, V0.n0,
          V0.b0, V0.n1, V0.b1, V0.nT, V0.bT, V0.z0, V0.z1, V0.zT⟩
      | exact ⟨V1.l0t, V1.l0a, V1.l1t, V1.l1a, V1.lTt, V1.lTa, V1.n0,
          V1.b0, V1.n1, V1.b1, V1.nT, V1.bT, V1.z0, V1.z1, V1.zT⟩
      | exact ⟨V2.l0t, V2.l0a, V2.l1t, V2.l1a, V2.lTt, V2.lTa, V2.n0,
          V2.b0, V2.n1, V2.b1, V2.nT, V2.bT, V2.z0, V2.z1, V2.zT⟩
      | exact ⟨V3.l0t, V3.l0a, V3.l1t, V3.l1a, V3.lTt, V3.lTa, V3.n0,
          V3.b0, V3.n1, V3.b1, V3.nT, V3.bT, V3.z0, V3.z1, V3.zT⟩

/-- The early-termination attempt loop preserves the buffer invariant. -/
theorem attemptLoopET_InvL (env : Env) :
    ∀ (a : Nat) (s : KState), InvL s → InvL (attemptLoopET env a s).1 := by
  intro a
  induction a with
  | zero => intro s h; simpa [attemptLoopET] using h
  | succ a ih =>
    intro s h
    by_cases he : s.err = true
    · simpa [attemptLoopET, he] using h
    · simp only [attemptLoopET, he, Bool.false_eq_true, if_false]
      split
      · exact attemptET_InvL env s h
      · split
        · exact attemptET_InvL env s h
        · exact ih _ (attemptET_InvL env s h)

/-- The cooling retune preserves the buffer invariant. -/
theorem coolingRetune_InvL (s : KState) (h : InvL s) :
    InvL (coolingRetune s) := by
  rw [coolingRetune]
  split
  · exact h
  · exact ⟨h.l0t, h.l0a, h.l1t, h.l1a, h.lTt, h.lTa, h.n0, h.b0, h.n1,
      h.b1, h.nT, h.bT, h.z0, h.z1, h.zT⟩

/-- The early-termination cooling loop preserves the buffer invariant. -/
theorem coolingLoopET_InvL (env : Env) (A : Nat) :
    ∀ (n : Nat) (s : KState), InvL s → InvL (coolingLoopET env A n s) := by
  intro n
  induction n with
  | zero => intro s h; simpa [coolingLoopET] using h
  | succ n ih =>
    intro s h
    by_cases he : s.err = true
    · simpa [coolingLoopET, he] using h
    · simp only [coolingLoopET, he, Bool.false_eq_true, if_false]
      split
      · exact attemptLoopET_InvL env A s h
      · split
        · exact attemptLoopET_InvL env A s h
        · exact ih _ (coolingRetune_InvL _ (attemptLoopET_InvL env A s h))

/-- The big-cycle preambles and the closing slack insertion do not touch
the buffers. -/
theorem preamble5_InvL (env : Env) (s : KState) (h : InvL s) :
    InvL (preamble5 env s) := by
  rw [preamble5]
  split
  · exact h
  · exact ⟨h.l0t, h.l0a, h.l1t, h.l1a, h.lTt, h.lTa, h.n0, h.b0, h.n1,
      h.b1, h.nT, h.bT, h.z0, h.z1, h.zT⟩

/-- The big-cycle preambles and the closing slack insertion do not touch
the buffers. -/
theorem preamble6_InvL (env : Env) (s : KState) (h : InvL s) :
    InvL (preamble6 env s) := by
  rw [preamble6]
  split
  · exact h
  · exact ⟨h.l0t, h.l0a, h.l1t, h.l1a, h.lTt, h.lTa, h.n0, h.b0, h.n1,
      h.b1, h.nT, h.bT, h.z0, h.z1, h.zT⟩

/-- The big-cycle preambles and the closing slack insertion do not touch
the buffers. -/
theorem endBreak_InvL (env : Env) (s : KState) (h : InvL s) :
    InvL (endBreak env s) := by
  rw [endBreak]
  split
  · exact h
  · exact ⟨h.l0t, h.l0a, h.l1t, h.l1a, h.lTt, h.lTa, h.n0, h.b0, h.n1,
      h.b1, h.nT, h.bT, h.z0, h.z1, h.zT⟩

/-- The Seq5 big-cycle loop preserves the buffer invariant. -/
theorem bigLoop5_InvL (env : Env) (NC A : Nat) :
    ∀ (B : Nat) (s : KState), InvL s → InvL (bigLoop5 env NC A B s) := by
  intro B
  induction B with
  | zero => intro s h; simpa [bigLoop5] using h
  | succ B ih =>
    intro s h
    simp only [bigLoop5]
    exact ih _ (endBreak_InvL env _ (coolingLoopET_InvL env A NC _
      (preamble5_InvL env s h)))

/-- The Seq6 big-cycle loop preserves the buffer invariant. -/
theorem bigLoop6_InvL (env : Env) (NC A : Nat) :
    ∀ (B : Nat) (s : KState), InvL s → InvL (bigLoop6 env NC A B s) := by
  intro B
  induction B with
  | zero => intro s h; simpa [bigLoop6] using h
  | succ B ih =>
    intro s h
    simp only [bigLoop6]
    exact ih _ (endBreak_InvL env _ (coolingLoopET_InvL env A NC _
      (preamble6_InvL env s h)))

/-- The freshly allocated zero buffers satisfy the invariant. -/
theorem initState_InvL (env : Env) (cap : Nat) :
    InvL (initState env cap) := by
  constructor <;> simp [initState]

/-- A zipped pair of equal-length prefixes determines both prefixes. -/
theorem take_pair_of_zip (x y : List Int) (c cap : Nat)
    (hx : x.length = cap) (hy : y.length = cap) (_hc : c ≤ cap)
    (l : List (Int × Int)) (hzip : (x.take c).zip (y.take c) = l) :
    x.take c = l.map Prod.fst ∧ y.take c = l.map Prod.snd := by
  constructor
  · rw [← hzip, List.map_fst_zip]
    simp [List.length_take, hx, hy]
  · rw [← hzip, List.map_snd_zip]
    simp [List.length_take, hx, hy]

/-- The allocated capacity is never modified by any kernel step. -/
theorem write0_cap (s : KState) (t : Int) : (write0 s t).cap = s.cap := by
  rw [write0]; split <;> rfl

/-- The allocated capacity is never modified by any kernel step. -/
theorem write1_cap (s : KState) (t : Int) : (write1 s t).cap = s.cap := by
  rw [write1]; split <;> rfl

/-- The allocated capacity is never modified by any kernel step. -/
theorem writeTomo_cap (s : KState) : (writeTomo s).cap = s.cap := by
  rw [writeTomo]; split <;> rfl

/-- The allocated capacity is never modified by any kernel step. -/
theorem attemptET_cap (env : Env) (s : KState) :
    (attemptET env s).1.cap = s.cap := by
  by_cases he : s.err = true
  · simp [attemptET, he]
  · simp only [attemptET, he, Bool.false_eq_true, if_false]
    repeat' split
    all_goals simp [write0_cap, write1_cap, writeTomo_cap, attemptShots]

/-- The allocated capacity is never modified by any kernel step. -/
theorem attemptLoopET_cap (env : Env) :
    ∀ (a : Nat) (s : KState), (attemptLoopET env a s).1.cap = s.cap := by
  intro a
  induction a with
  | zero => intro s; simp [attemptLoopET]
  | succ a ih =>
    intro s
    by_cases he : s.err = true
    · simp [attemptLoopET, he]
    · simp only [attemptLoopET, he, Bool.false_eq_true, if_false]
      split
      · exact attemptET_cap env s
      · split
        · exact attemptET_cap env s
        · rw [ih]
          exact attemptET_cap env s

/-- The allocated capacity is never modified by any kernel step. -/
theorem coolingRetune_cap (s : KState) : (coolingRetune s).cap = s.cap := by
  rw [coolingRetune]; split <;> rfl

/-- The allocated capacity is never modified by any kernel step. -/
theorem coolingLoopET_cap (env : Env) (A : Nat) :
    ∀ (n : Nat) (s : KState), (coolingLoopET env A n s).cap = s.cap := by
  intro n
  induction n with
  | zero => intro s; simp [coolingLoopET]
  | succ n ih =>
    intro s
    by_cases he : s.err = true
    · simp [coolingLoopET, he]
    · simp only [coolingLoopET, he, Bool.false_eq_true, if_false]
      split
      · exact attemptLoopET_cap env A s
      · split
        · exact attemptLoopET_cap env A s
        · rw [ih, coolingRetune_cap]
          exact attemptLoopET_cap env A s

/-- The allocated capacity is never modified by any kernel step. -/
theorem preamble5_cap (env : Env) (s : KState) :
    (preamble5 env s).cap = s.cap := by
  rw [preamble5]; split <;> rfl

/-- The allocated capacity is never modified by any kernel step. -/
theorem preamble6_cap (env : Env) (s : KState) :
    (preamble6 env s).cap = s.cap := by
  rw [preamble6]; split <;> rfl

/-- The allocated capacity is never modified by any kernel step. -/
theorem endBreak_cap (env : Env) (s : KState) :
    (endBreak env s).cap = s.cap := by
  rw [endBreak]; split <;> rfl

/-- The allocated capacity is never modified by any kernel step. -/
theorem runChunk5_cap (env : Env) (B NC A cap : Nat) :
    (runChunk5 env B NC A cap).cap = cap := by
  rw [runChunk5]
  have h : ∀ (B' : Nat) (s : KState),
      (bigLoop5 env NC A B' s).cap = s.cap := by
    intro B'
    induction B' with
    | zero => intro s; simp [bigLoop5]
    | succ B' ih =>
      intro s
      simp only [bigLoop5]
      rw [ih, bigCycle5, endBreak_cap, coolingLoopET_cap, preamble5_cap]
  rw [h]
  rfl

/-- The allocated capacity is never modified by any kernel step. -/
theorem runChunk6_cap (env : Env) (B NC A cap : Nat) :
    (runChunk6 env B NC A cap).cap = cap := by
  rw [runChunk6]
  have h : ∀ (B' : Nat) (s : KState),
      (bigLoop6 env NC A B' s).cap = s.cap := by
    intro B'
    induction B' with
    | zero => intro s; simp [bigLoop6]
    | succ B' ih =>
      intro s
      simp only [bigLoop6]
      rw [ih, bigCycle6, endBreak_cap, coolingLoopET_cap, preamble6_cap]
  rw [h]
  rfl

/-- C6: for every channel, the data handed to persistence after draining
a chunk — each buffer sliced to the count the kernel returned in its
`ChunkResult` tuple — is exactly the sequence of records actually written
during the chunk (the ghost logs), and that count never exceeds the
allocated capacity `chunk_max = 6 * num_big_cycles_chunk`: no buffer slot
at an index at or beyond the count is ever persisted, so uninitialized
pre-allocated slots never escape; this holds for Seq5 and Seq6 alike. -/
theorem C6_drained_data_is_recorded_prefix (env : Env) (B NC A : Nat) :
    ((drainOf (runChunk5 env B NC A (6 * B))).d0t =
       (runChunk5 env B NC A (6 * B)).log0.map Prod.fst ∧
     (drainOf (runChunk5 env B NC A (6 * B))).d0a =
       (runChunk5 env B NC A (6 * B)).log0.map Prod.snd ∧
     (drainOf (runChunk5 env B NC A (6 * B))).d1t =
       (runChunk5 env B NC A (6 * B)).log1.map Prod.fst ∧
     (drainOf (runChunk5 env B NC A (6 * B))).d1a =
       (runChunk5 env B NC A (6 * B)).log1.map Prod.snd ∧
     (drainOf (runChunk5 env B NC A (6 * B))).dTt =
       (runChunk5 env B NC A (6 * B)).logT.map Prod.fst ∧
     (drainOf (runChunk5 env B NC A (6 * B))).dTa =
       (runChunk5 env B NC A (6 * B)).logT.map Prod.snd ∧
     (runChunk5 env B NC A (6 * B)).c0 =
       (runChunk5 env B NC A (6 * B)).log0.length ∧
     (runChunk5 env B NC A (6 * B)).c1 =
       (runChunk5 env B NC A (6 * B)).log1.length ∧
     (runChunk5 env B NC A (6 * B)).ctomo =
       (runChunk5 env B NC A (6 * B)).logT.length ∧
     (runChunk5 env B NC A (6 * B)).c0 ≤ 6 * B ∧
     (runChunk5 env B NC A (6 * B)).c1 ≤ 6 * B ∧
     (runChunk5 env B NC A (6 * B)).ctomo ≤ 6 * B) ∧
    ((drainOf (runChunk6 env B NC A (6 * B))).d0t =
       (runChunk6 env B NC A (6 * B)).log0.map Prod.fst ∧
     (drainOf (runChunk6 env B NC A (6 * B))).d0a =
       (runChunk6 env B NC A (6 * B)).log0.map Prod.snd ∧
     (drainOf (runChunk6 env B NC A (6 * B))).d1t =
       (runChunk6 env B NC A (6 * B)).log1.map Prod.fst ∧
     (drainOf (runChunk6 env B NC A (6 * B))).d1a =
       (runChunk6 env B NC A (6 * B)).log1.map Prod.snd ∧
     (drainOf (runChunk6 env B NC A (6 * B))).dTt =
       (runChunk6 env B NC A (6 * B)).logT.map Prod.fst ∧
     (drainOf (runChunk6 env B NC A (6 * B))).dTa =
       (runChunk6 env B NC A (6 * B)).logT.map Prod.snd ∧
     (runChunk6 env B NC A (6 * B)).c0 =
       (runChunk6 env B NC A (6 * B)).log0.length ∧
     (runChunk6 env B NC A (6 * B)).c1 =
       (runChunk6 env B NC A (6 * B)).log1.length ∧
     (runChunk6 env B NC A (6 * B)).ctomo =
       (runChunk6 env B NC A (6 * B)).logT.length ∧
     (runChunk6 env B NC A (6 * B)).c0 ≤ 6 * B ∧
     (runChunk6 env B NC A (6 * B)).c1 ≤ 6 * B ∧
     (runChunk6 env B NC A (6 * B)).ctomo ≤ 6 * B) := by
  have h5 : InvL (runChunk5 env B NC A (6 * B)) :=
    bigLoop5_InvL env NC A B (initState env (6 * B))
      (initState_InvL env (6 * B))
  have h6 : InvL (runChunk6 env B NC A (6 * B)) :=
    bigLoop6_InvL env NC A B (initState env (6 * B))
      (initState_InvL env (6 * B))
  have hd0 := take_pair_of_zip _ _ _ _ h5.l0t h5.l0a h5.b0 _ h5.z0
  have hd1 := take_pair_of_zip _ _ _ _ h5.l1t h5.l1a h5.b1 _ h5.z1
  have hdT := take_pair_of_zip _ _ _ _ h5.lTt h5.lTa h5.bT _ h5.zT
  have he0 := take_pair_of_zip _ _ _ _ h6.l0t h6.l0a h6.b0 _ h6.z0
  have he1 := take_pair_of_zip _ _ _ _ h6.l1t h6.l1a h6.b1 _ h6.z1
  have heT := take_pair_of_zip _ _ _ _ h6.lTt h6.lTa h6.bT _ h6.zT
  have hcap5 : (runChunk5 env B NC A (6 * B)).cap = 6 * B :=
    (runChunk5_cap env B NC A (6 * B)).trans rfl
  have hcap6 : (runChunk6 env B NC A (6 * B)).cap = 6 * B :=
    (runChunk6_cap env B NC A (6 * B)).trans rfl
  refine ⟨⟨hd0.1, hd0.2, hd1.1, hd1.2, hdT.1, hdT.2, h5.n0, h5.n1, h5.nT,
    ?_, ?_, ?_⟩, ⟨he0.1, he0.2, he1.1, he1.2, heT.1, heT.2, h6.n0, h6.n1,
    h6.nT, ?_, ?_, ?_⟩⟩
  · exact le_of_le_of_eq h5.b0 hcap5
  · exact le_of_le_of_eq h5.b1 hcap5
  · exact le_of_le_of_eq h5.bT hcap5
  · exact le_of_le_of_eq h6.b0 hcap6
  · exact le_of_le_of_eq h6.b1 hcap6
  · exact le_of_le_of_eq h6.bT hcap6

/-! ### Claims C2 and C4: the exhaust-all-attempts variant (Seq7) -/

/-- Unfolding the detection count over one more attempt. -/
theorem cnt0_succ (env : Env) (n : Nat) :
    cnt0 env (n + 1) =
      cnt0 env n + (if env.t0 n != -1 then 1 else 0) := by
  rw [cnt0, cnt0, List.range_succ, List.filter_append]
  split <;> simp_all

/-- Unfolding the detection count over one more attempt. -/
theorem cnt1_succ (env : Env) (n : Nat) :
    cnt1 env (n + 1) =
      cnt1 env n + (if env.t1 n != -1 then 1 else 0) := by
  rw [cnt1, cnt1, List.range_succ, List.filter_append]
  split <;> simp_all

/-- Unfolding the detection record list over one more attempt. -/
theorem dets0_succ (env : Env) (n : Nat) :
    dets0 env (n + 1) =
      dets0 env n ++
        (if env.t0 n != -1 then [(env.t0 n, Int.ofNat n)] else []) := by
  rw [dets0, dets0, List.range_succ, List.filter_append, List.map_append]
  split <;> simp_all

/-- Unfolding the detection record list over one more attempt. -/
theorem dets1_succ (env : Env) (n : Nat) :
    dets1 env (n + 1) =
      dets1 env n ++
        (if env.t1 n != -1 then [(env.t1 n, Int.ofNat n)] else []) := by
  rw [dets1, dets1, List.range_succ, List.filter_append, List.map_append]
  split <;> simp_all

/-- There is one detection record per counted detection. -/
theorem dets0_length (env : Env) (n : Nat) :
    (dets0 env n).length = cnt0 env n := by
  simp [dets0, cnt0]

/-- There is one detection record per counted detection. -/
theorem dets1_length (env : Env) (n : Nat) :
    (dets1 env n).length = cnt1 env n := by
  simp [dets1, cnt1]

/-- The detection count is monotone in the number of attempts. -/
theorem cnt0_mono (env : Env) {m n : Nat} (h : m ≤ n) :
    cnt0 env m ≤ cnt0 env n := by
  induction n with
  | zero => simp [Nat.le_zero.mp h]
  | succ n ih =>
    rcases Nat.lt_or_ge m (n + 1) with hlt | hge
    · have := ih (by omega)
      rw [cnt0_succ]
      split <;> omega
    · have : m = n + 1 := by omega
      simp [this]

/-- The detection count is monotone in the number of attempts. -/
theorem cnt1_mono (env : Env) {m n : Nat} (h : m ≤ n) :
    cnt1 env m ≤ cnt1 env n := by
  induction n with
  | zero => simp [Nat.le_zero.mp h]
  | succ n ih =>
    rcases Nat.lt_or_ge m (n + 1) with hlt | hge
    · have := ih (by omega)
      rw [cnt1_succ]
      split <;> omega
    · have : m = n + 1 := by omega
      simp [this]

/-- Detection records of a shorter schedule form the initial segment of a
longer one. -/
theorem dets0_take (env : Env) {m n : Nat} (h : m ≤ n) :
    (dets0 env n).take (cnt0 env m) = dets0 env m := by
  induction n with
  | zero =>
    have : m = 0 := Nat.le_zero.mp h
    simp [this, dets0, cnt0]
  | succ n ih =>
    rcases Nat.lt_or_ge m (n + 1) with hlt | hge
    · have hmn : m ≤ n := by omega
      rw [dets0_succ, List.take_append_of_le_length, ih hmn]
      rw [dets0_length]
      exact cnt0_mono env hmn
    · have hmn : m = n + 1 := by omega
      rw [hmn, ← dets0_length env (n + 1)]
      exact List.take_length _

/-- If the total detections on ttl0 exceed `cap`, there is a first
attempt at which the count reaches `cap` and that attempt detects. -/
theorem first_crossing (env : Env) (cap : Nat) :
    ∀ T : Nat, cnt0 env T ≥ cap + 1 →
      ∃ n0, n0 < T ∧ cnt0 env n0 = cap ∧ env.t0 n0 ≠ -1 := by
  intro T
  induction T with
  | zero => intro h; simp [cnt0] at h
  | succ T ih =>
    intro h
    by_cases hT : cnt0 env T ≥ cap + 1
    · obtain ⟨n0, h1, h2, h3⟩ := ih hT
      exact ⟨n0, by omega, h2, h3⟩
    · have hs := cnt0_succ env T
      by_cases hd : env.t0 T != -1
      · rw [if_pos hd] at hs
        refine ⟨T, by omega, by omega, by simpa using hd⟩
      · rw [if_neg hd] at hs
        omega

/-- Invariant of the Seq7 kernel after `n` executed attempts and `r`
cooling retunes, as long as no capacity failure has occurred: the attempt
counter equals the number of executed attempts, the attempt log lists the
indices 0..n-1 in order, and the per-channel counters and ghost logs
follow the detection counts of the environment. -/
def Good7 (env : Env) (cap n r : Nat) (s : KState) : Prop :=
  s.err = false ∧ s.cap = cap ∧ s.attempt_index = n ∧ s.execOrd = n ∧
  s.attemptLog = List.range n ∧
  s.c0 = cnt0 env n ∧ s.log0 = dets0 env n ∧
  s.c1 = cnt1 env n ∧ s.log1 = dets1 env n ∧
  s.recoveries = r

/-- State of the aborted Seq7 kernel: the capacity error was raised
during attempt `n0`, at the write of its ttl0 record — the `cap + 1`-th
detection on ttl0 — leaving exactly the first `cap` records (the first
`cap` detections of the schedule) in the log, and nothing executed
afterwards. -/
def Bad7 (env : Env) (cap n0 : Nat) (s : KState) : Prop :=
  s.err = true ∧ s.cap = cap ∧ s.attempt_index = n0 ∧
  s.execOrd = n0 + 1 ∧ s.attemptLog = List.range (n0 + 1) ∧
  s.c0 = cap ∧ s.log0 = dets0 env n0 ∧
  s.c1 = cnt1 env n0 ∧ s.log1 = dets1 env n0

/-- One Seq7 attempt under the invariant, when neither channel count
would exceed capacity: every counter and log advances by the detections
of attempt `n`, and `attempt_index` is incremented. -/
theorem attempt7_good (env : Env) (cap n r : Nat) (s : KState)
    (h : Good7 env cap n r s)
    (h0 : cnt0 env (n + 1) ≤ cap) (h1 : cnt1 env (n + 1) ≤ cap) :
    Good7 env cap (n + 1) r (attempt7 env s) := by
  obtain ⟨he, hcap, hai, heo, hal, hc0, hl0, hc1, hl1, hr⟩ := h
  have e0 := cnt0_succ env n
  have e1 := cnt1_succ env n
  have f0 := dets0_succ env n
  have f1 := dets1_succ env n
  by_cases d0 : env.t0 n = -1
  · by_cases d1 : env.t1 n = -1
    · rw [if_neg (by simp [d0])] at e0 f0
      rw [if_neg (by simp [d1])] at e1 f1
      simp [attempt7, he, heo, d0, d1, attemptShots, Good7, hai, hal,
        hc0, hl0, hc1, hl1, hr, hcap, e0, e1, f0, f1, List.range_succ]
    · rw [if_neg (by simp [d0])] at e0 f0
      rw [if_pos (by simpa using d1)] at e1 f1
      have hw1 : cnt1 env n < cap := by omega
      simp [attempt7, he, heo, d0, d1, attemptShots, write1, hw1, Good7,
        hai, hal, hc0, hl0, hc1, hl1, hr, hcap, e0, e1, f0, f1,
        List.range_succ]
  · by_cases d1 : env.t1 n = -1
    · rw [if_pos (by simpa using d0)] at e0 f0
      rw [if_neg (by simp [d1])] at e1 f1
      have hw0 : cnt0 env n < cap := by omega
      simp [attempt7, he, heo, d0, d1, attemptShots, write0, hw0, Good7,
        hai, hal, hc0, hl0, hc1, hl1, hr, hcap, e0, e1, f0, f1,
        List.range_succ]
    · rw [if_pos (by simpa using d0)] at e0 f0
      rw [if_pos (by simpa using d1)] at e1 f1
      have hw0 : cnt0 env n < cap := by omega
      have hw1 : cnt1 env n < cap := by omega
      simp [attempt7, he, heo, d0, d1, attemptShots, write0, write1, hw0,
        hw1, Good7, hai, hal, hc0, hl0, hc1, hl1, hr, hcap, e0, e1, f0,
        f1, List.range_succ]

/-- One Seq7 attempt under the invariant when the ttl0 count has already
reached capacity and the attempt detects on ttl0: the bounds-checked
write raises, the kernel aborts, the buffers and counters are unchanged
and `attempt_index` is not incremented. -/
theorem attempt7_fail (env : Env) (cap n0 r : Nat) (s : KState)
    (h : Good7 env cap n0 r s)
    (hc : cnt0 env n0 = cap) (hd : env.t0 n0 ≠ -1) :
    Bad7 env cap n0 (attempt7 env s) := by
  obtain ⟨he, hcap, hai, heo, hal, hc0, hl0, hc1, hl1, hr⟩ := h
  have hw : ¬ s.c0 < s.cap := by rw [hc0, hcap, hc]; omega
  simp [attempt7, he, heo, hd, attemptShots, write0, hw, Bad7, hai, hal,
    hc0, hl0, hc1, hl1, hcap, hc, List.range_succ]

/-- An aborted kernel executes nothing further. -/
theorem attempt7_frozen (env : Env) (s : KState) (h : s.err = true) :
    attempt7 env s = s := by
  simp [attempt7, h]

/-- An aborted kernel executes nothing further. -/
theorem attemptLoop7_frozen (env : Env) :
    ∀ (a : Nat) (s : KState), s.err = true → attemptLoop7 env a s = s := by
  intro a
  cases a with
  | zero => intro s _; rfl
  | succ a => intro s h; simp [attemptLoop7, h]

/-- An aborted kernel executes nothing further. -/
theorem coolingRetune_frozen (s : KState) (h : s.err = true) :
    coolingRetune s = s := by
  simp [coolingRetune, h]

/-- An aborted kernel executes nothing further. -/
theorem coolingLoop7_frozen (env : Env) (A : Nat) :
    ∀ (n : Nat) (s : KState), s.err = true → coolingLoop7 env A n s = s := by
  intro n
  cases n with
  | zero => intro s _; rfl
  | succ n => intro s h; simp [coolingLoop7, h]

/-- An aborted kernel executes nothing further. -/
theorem preamble6_frozen (env : Env) (s : KState) (h : s.err = true) :
    preamble6 env s = s := by
  simp [preamble6, h]

/-- An aborted kernel executes nothing further. -/
theorem endBreak_frozen (env : Env) (s : KState) (h : s.err = true) :
    endBreak env s = s := by
  simp [endBreak, h]

/-- An aborted kernel executes nothing further. -/
theorem bigLoop7_frozen (env : Env) (NC A : Nat) :
    ∀ (B : Nat) (s : KState), s.err = true → bigLoop7 env NC A B s = s := by
  intro B
  induction B with
  | zero => intro s _; rfl
  | succ B ih =>
    intro s h
    simp only [bigLoop7, bigCycle7]
    rw [preamble6_frozen env s h, coolingLoop7_frozen env A NC s h,
      endBreak_frozen env s h, ih s h]

/-- The cooling retune keeps the invariant and counts one recovery. -/
theorem coolingRetune_good (env : Env) (cap n r : Nat) (s : KState)
    (h : Good7 env cap n r s) : Good7 env cap n (r + 1) (coolingRetune s) := by
  obtain ⟨he, hcap, hai, heo, hal, hc0, hl0, hc1, hl1, hr⟩ := h
  rw [coolingRetune, if_neg (by rw [he]; simp)]
  exact ⟨he, hcap, hai, heo, hal, hc0, hl0, hc1, hl1, by rw [hr]⟩

/-- The big-cycle preamble does not touch counters or logs. -/
theorem preamble6_good (env : Env) (cap n r : Nat) (s : KState)
    (h : Good7 env cap n r s) : Good7 env cap n r (preamble6 env s) := by
  obtain ⟨he, hcap, hai, heo, hal, hc0, hl0, hc1, hl1, hr⟩ := h
  rw [preamble6, if_neg (by rw [he]; simp)]
  exact ⟨he, hcap, hai, heo, hal, hc0, hl0, hc1, hl1, hr⟩

/-- The closing slack insertion does not touch counters or logs. -/
theorem endBreak_good (env : Env) (cap n r : Nat) (s : KState)
    (h : Good7 env cap n r s) : Good7 env cap n r (endBreak env s) := by
  obtain ⟨he, hcap, hai, heo, hal, hc0, hl0, hc1, hl1, hr⟩ := h
  rw [endBreak, if_neg (by rw [he]; simp)]
  exact ⟨he, hcap, hai, heo, hal, hc0, hl0, hc1, hl1, hr⟩

/-- The Seq7 attempt loop under the invariant, when no prefix of the
schedule exceeds capacity on either channel, executes every attempt. -/
theorem attemptLoop7_good (env : Env) (cap r : Nat) :
    ∀ (a n : Nat) (s : KState), Good7 env cap n r s →
      (∀ m, m ≤ n + a → cnt0 env m ≤ cap) →
      (∀ m, m ≤ n + a → cnt1 env m ≤ cap) →
      Good7 env cap (n + a) r (attemptLoop7 env a s) := by
  intro a
  induction a with
  | zero => intro n s h _ _; simpa [attemptLoop7] using h
  | succ a ih =>
    intro n s h hs0 hs1
    have hstep := attempt7_good env cap n r s h (hs0 (n + 1) (by omega))
      (hs1 (n + 1) (by omega))
    have hrec := ih (n + 1) (attempt7 env s) hstep
      (fun m hm => hs0 m (by omega)) (fun m hm => hs1 m (by omega))
    rw [show n + (a + 1) = n + 1 + a by omega]
    simpa [attemptLoop7, h.1] using hrec

/-- The Seq7 cooling loop under the invariant, within capacity: all
attempts run and each cooling cycle ends with one recovery retune. -/
theorem coolingLoop7_good (env : Env) (cap A : Nat) :
    ∀ (nc n r : Nat) (s : KState), Good7 env cap n r s →
      (∀ m, m ≤ n + nc * A → cnt0 env m ≤ cap) →
      (∀ m, m ≤ n + nc * A → cnt1 env m ≤ cap) →
      Good7 env cap (n + nc * A) (r + nc) (coolingLoop7 env A nc s) := by
  intro nc
  induction nc with
  | zero => intro n r s h _ _; simpa [coolingLoop7] using h
  | succ nc ih =>
    intro n r s h hs0 hs1
    have h1 := attemptLoop7_good env cap r A n s h
      (fun m hm => hs0 m (by nlinarith [Nat.succ_mul nc A]))
      (fun m hm => hs1 m (by nlinarith [Nat.succ_mul nc A]))
    have h2 := coolingRetune_good env cap (n + A) r _ h1
    have h3 := ih (n + A) (r + 1) _ h2
      (fun m hm => hs0 m (by nlinarith [Nat.succ_mul nc A]))
      (fun m hm => hs1 m (by nlinarith [Nat.succ_mul nc A]))
    rw [show n + (nc + 1) * A = n + A + nc * A by rw [Nat.succ_mul]; omega,
      show r + (nc + 1) = r + 1 + nc by omega]
    simpa [coolingLoop7, h.1] using h3

/-- The Seq7 big-cycle loop under the invariant, within capacity. -/
theorem bigLoop7_good (env : Env) (cap NC A : Nat) :
    ∀ (b n r : Nat) (s : KState), Good7 env cap n r s →
      (∀ m, m ≤ n + b * (NC * A) → cnt0 env m ≤ cap) →
      (∀ m, m ≤ n + b * (NC * A) → cnt1 env m ≤ cap) →
      Good7 env cap (n + b * (NC * A)) (r + b * NC) (bigLoop7 env NC A b s) := by
  intro b
  induction b with
  | zero => intro n r s h _ _; simpa [bigLoop7] using h
  | succ b ih =>
    intro n r s h hs0 hs1
    have h1 := preamble6_good env cap n r s h
    have hstep : n + NC * A ≤ n + (b + 1) * (NC * A) :=
      Nat.add_le_add_left (Nat.le_mul_of_pos_left _ (by omega)) n
    have harith : n + NC * A + b * (NC * A) = n + (b + 1) * (NC * A) := by
      ring
    have h2 := coolingLoop7_good env cap A NC n r _ h1
      (fun m hm => hs0 m (le_trans hm hstep))
      (fun m hm => hs1 m (le_trans hm hstep))
    have h3 := endBreak_good env cap _ _ _ h2
    have h4 := ih (n + NC * A) (r + NC) _ h3
      (fun m hm => hs0 m (le_trans hm (le_of_eq harith)))
      (fun m hm => hs1 m (le_trans hm (le_of_eq harith)))
    rw [show n + (b + 1) * (NC * A) = n + NC * A + b * (NC * A) by
        rw [Nat.succ_mul]; omega,
      show r + (b + 1) * NC = r + NC + b * NC by rw [Nat.succ_mul]; omega]
    simpa [bigLoop7, bigCycle7] using h4

/-- The initial chunk state satisfies the Seq7 invariant. -/
theorem initState_good7 (env : Env) (cap : Nat) :
    Good7 env cap 0 0 (initState env cap) := by
  simp [Good7, initState, cnt0, cnt1, dets0, dets1]

/-- If the first ttl0 overflow lies inside the remaining attempt budget,
the attempt loop aborts exactly there. -/
theorem attemptLoop7_bad (env : Env) (cap n0 : Nat)
    (hc : cnt0 env n0 = cap) (hd : env.t0 n0 ≠ -1)
    (hs1 : ∀ m, m ≤ n0 + 1 → cnt1 env m ≤ cap) :
    ∀ (a n r : Nat) (s : KState), Good7 env cap n r s → n ≤ n0 →
      n0 < n + a → Bad7 env cap n0 (attemptLoop7 env a s) := by
  intro a
  induction a with
  | zero => intro n r s _ hle hlt; omega
  | succ a ih =>
    intro n r s h hle hlt
    have hunf : attemptLoop7 env (a + 1) s =
        attemptLoop7 env a (attempt7 env s) := by
      simp [attemptLoop7, h.1]
    by_cases heq : n = n0
    · subst heq
      have hbad := attempt7_fail env cap n r s h hc hd
      rw [hunf, attemptLoop7_frozen env a _ hbad.1]
      exact hbad
    · have hstep := attempt7_good env cap n r s h
        (le_trans (cnt0_mono env (by omega : n + 1 ≤ n0)) (le_of_eq hc))
        (hs1 (n + 1) (by omega))
      rw [hunf]
      exact ih (n + 1) r _ hstep (by omega) (by omega)

/-- If the first ttl0 overflow lies inside the remaining cooling-cycle
budget, the cooling loop aborts exactly there. -/
theorem coolingLoop7_bad (env : Env) (cap A n0 : Nat)
    (hc : cnt0 env n0 = cap) (hd : env.t0 n0 ≠ -1)
    (hs1 : ∀ m, m ≤ n0 + 1 → cnt1 env m ≤ cap) :
    ∀ (nc n r : Nat) (s : KState), Good7 env cap n r s → n ≤ n0 →
      n0 < n + nc * A → Bad7 env cap n0 (coolingLoop7 env A nc s) := by
  intro nc
  induction nc with
  | zero =>
    intro n r s _ hle hlt
    rw [Nat.zero_mul] at hlt
    omega
  | succ nc ih =>
    intro n r s h hle hlt
    have hunf : coolingLoop7 env A (nc + 1) s =
        coolingLoop7 env A nc (coolingRetune (attemptLoop7 env A s)) := by
      simp [coolingLoop7, h.1]
    by_cases hin : n0 < n + A
    · have hbad := attemptLoop7_bad env cap n0 hc hd hs1 A n r s h hle hin
      rw [hunf, coolingRetune_frozen _ hbad.1,
        coolingLoop7_frozen env A nc _ hbad.1]
      exact hbad
    · have hgood := attemptLoop7_good env cap r A n s h
        (fun m hm =>
          le_trans (cnt0_mono env (by omega : m ≤ n0)) (le_of_eq hc))
        (fun m hm => hs1 m (by omega))
      have h2 := coolingRetune_good env cap (n + A) r _ hgood
      have e : n + (nc + 1) * A = n + A + nc * A := by ring
      rw [hunf]
      exact ih (n + A) (r + 1) _ h2 (by omega) (by rw [← e]; exact hlt)

/-- If the first ttl0 overflow lies inside the remaining big-cycle
budget, the big-cycle loop aborts exactly there. -/
theorem bigLoop7_bad (env : Env) (cap NC A n0 : Nat)
    (hc : cnt0 env n0 = cap) (hd : env.t0 n0 ≠ -1)
    (hs1 : ∀ m, m ≤ n0 + 1 → cnt1 env m ≤ cap) :
    ∀ (b n r : Nat) (s : KState), Good7 env cap n r s → n ≤ n0 →
      n0 < n + b * (NC * A) → Bad7 env cap n0 (bigLoop7 env NC A b s) := by
  intro b
  induction b with
  | zero =>
    intro n r s _ hle hlt
    rw [Nat.zero_mul] at hlt
    omega
  | succ b ih =>
    intro n r s h hle hlt
    have h1 := preamble6_good env cap n r s h
    have hunf : bigLoop7 env NC A (b + 1) s =
        bigLoop7 env NC A b
          (endBreak env (coolingLoop7 env A NC (preamble6 env s))) := rfl
    by_cases hin : n0 < n + NC * A
    · have hbad := coolingLoop7_bad env cap A n0 hc hd hs1 NC n r _ h1
        hle hin
      rw [hunf, endBreak_frozen env _ hbad.1,
        bigLoop7_frozen env NC A b _ hbad.1]
      exact hbad
    · have h2 := coolingLoop7_good env cap A NC n r _ h1
        (fun m hm =>
          le_trans (cnt0_mono env (by omega : m ≤ n0)) (le_of_eq hc))
        (fun m hm => hs1 m (by omega))
      have h3 := endBreak_good env cap _ _ _ h2
      have e : n + (b + 1) * (NC * A) = n + NC * A + b * (NC * A) := by
        ring
      rw [hunf]
      exact ih (n + NC * A) (r + NC) _ h3 (by omega)
        (by rw [← e]; exact hlt)

set_option maxHeartbeats 2000000 in
/-- One exhaust-all attempt preserves the buffer invariant. -/
theorem attempt7_InvL (env : Env) (s : KState) (h : InvL s) :
    InvL (attempt7 env s) := by
  by_cases he : s.err = true
  · simpa [attempt7, he] using h
  · simp only [attempt7, he, Bool.false_eq_true, if_false]
    have W0 := attemptShots_InvL s h
    have W1 := write0_InvL _ (env.t0 s.execOrd) W0
    have W2 := write1_InvL _ (env.t1 s.execOrd) W1
    have W3 := write1_InvL _ (env.t1 s.execOrd) W0
    repeat' split
    all_goals
      first
      | exact ⟨W0.l0t, W0.l0a, W0.l1t, W0.l1a, W0.lTt, W0.lTa, W0.n0,
          W0.b0, W0.n1, W0.b1, W0.nT, W0.bT, W0.z0, W0.z1, W0.zT⟩
      | exact ⟨W1.l0t, W1.l0a, W1.l1t, W1.l1a, W1.lTt, W1.lTa, W1.n0,
          W1.b0, W1.n1, W1.b1, W1.nT, W1.bT, W1.z0, W1.z1, W1.zT⟩
      | exact ⟨W2.l0t, W2.l0a, W2.l1t, W2.l1a, W2.lTt, W2.lTa, W2.n0,
          W2.b0, W2.n1, W2.b1, W2.nT, W2.bT, W2.z0, W2.z1, W2.zT⟩
      | exact ⟨W3.l0t, W3.l0a, W3.l1t, W3.l1a, W3.lTt, W3.lTa, W3.n0,
          W3.b0, W3.n1, W3.b1, W3.nT, W3.bT, W3.z0, W3.z1, W3.zT⟩

/-- The exhaust-all attempt loop preserves the buffer invariant. -/
theorem attemptLoop7_InvL (env : Env) :
    ∀ (a : Nat) (s : KState), InvL s → InvL (attemptLoop7 env a s) := by
  intro a
  induction a with
  | zero => intro s h; simpa [attemptLoop7] using h
  | succ a ih =>
    intro s h
    by_cases he : s.err = true
    · simpa [attemptLoop7, he] using h
    · simp only [attemptLoop7, he, Bool.false_eq_true, if_false]
      exact ih _ (attempt7_InvL env s h)

/-- The exhaust-all cooling loop preserves the buffer invariant. -/
theorem coolingLoop7_InvL (env : Env) (A : Nat) :
    ∀ (n : Nat) (s : KState), InvL s → InvL (coolingLoop7 env A n s) := by
  intro n
  induction n with
  | zero => intro s h; simpa [coolingLoop7] using h
  | succ n ih =>
    intro s h
    by_cases he : s.err = true
    · simpa [coolingLoop7, he] using h
    · simp only [coolingLoop7, he, Bool.false_eq_true, if_false]
      exact ih _ (coolingRetune_InvL _ (attemptLoop7_InvL env A s h))

/-- The Seq7 big-cycle loop preserves the buffer invariant. -/
theorem bigLoop7_InvL (env : Env) (NC A : Nat) :
    ∀ (B : Nat) (s : KState), InvL s → InvL (bigLoop7 env NC A B s) := by
  intro B
  induction B with
  | zero => intro s h; simpa [bigLoop7] using h
  | succ B ih =>
    intro s h
    simp only [bigLoop7]
    exact ih _ (endBreak_InvL env _ (coolingLoop7_InvL env A NC _
      (preamble6_InvL env s h)))

/-- C2: in the Seq7 chunk kernel, if the detections on ttl0 would exceed
the allocated capacity `C` (while ttl1 stays within it), the run raises
the capacity error (the bounds-checked buffer write) exactly at the
`C+1`-th write to that channel's log: there is a first attempt `n0` at
which the ttl0 count has reached `C` and an edge is read; the kernel
aborts during that very attempt (`execOrd = n0 + 1`, `attempt_index`
still `n0`, per `Bad7`), after exactly `C` successful writes
(`c0 = C`), with the log holding exactly the first `C` detections of the
schedule, intact in the buffers.  Conversely, if neither channel's
detections exceed `C`, no error is raised and every detection is
written. -/
theorem C2_capacity_error_exactly_at_overflow (env : Env)
    (B NC A cap : Nat) :
    (cnt0 env (B * NC * A) ≥ cap + 1 → cnt1 env (B * NC * A) ≤ cap →
      ∃ n0, n0 < B * NC * A ∧ cnt0 env n0 = cap ∧ env.t0 n0 ≠ -1 ∧
        Bad7 env cap n0 (runChunk7 env B NC A cap) ∧
        dets0 env n0 = (dets0 env (B * NC * A)).take cap ∧
        (runChunk7 env B NC A cap).t0times.take cap =
          (dets0 env n0).map Prod.fst ∧
        (runChunk7 env B NC A cap).t0attempts.take cap =
          (dets0 env n0).map Prod.snd) ∧
    (cnt0 env (B * NC * A) ≤ cap → cnt1 env (B * NC * A) ≤ cap →
      (runChunk7 env B NC A cap).err = false ∧
      (runChunk7 env B NC A cap).c0 = cnt0 env (B * NC * A) ∧
      (runChunk7 env B NC A cap).log0 = dets0 env (B * NC * A) ∧
      (runChunk7 env B NC A cap).c1 = cnt1 env (B * NC * A) ∧
      (runChunk7 env B NC A cap).log1 = dets1 env (B * NC * A)) := by
  have hT : B * NC * A = B * (NC * A) := by rw [Nat.mul_assoc]
  constructor
  · intro hover hc1T
    obtain ⟨n0, hn0T, hc, hd⟩ := first_crossing env cap (B * NC * A) hover
    have hs1 : ∀ m, m ≤ n0 + 1 → cnt1 env m ≤ cap := fun m hm =>
      le_trans (cnt1_mono env (by omega : m ≤ B * NC * A)) hc1T
    have hbad : Bad7 env cap n0 (runChunk7 env B NC A cap) := by
      rw [runChunk7]
      exact bigLoop7_bad env cap NC A n0 hc hd hs1 B 0 0
        (initState env cap) (initState_good7 env cap) (by omega)
        (by rw [← hT]; omega)
    have hInv : InvL (runChunk7 env B NC A cap) := by
      rw [runChunk7]
      exact bigLoop7_InvL env NC A B _ (initState_InvL env cap)
    have hcapeq : (runChunk7 env B NC A cap).cap = cap := hbad.2.1
    have hc0 : (runChunk7 env B NC A cap).c0 = cap := hbad.2.2.2.2.2.1
    have hl0 : (runChunk7 env B NC A cap).log0 = dets0 env n0 :=
      hbad.2.2.2.2.2.2.1
    have hpair := take_pair_of_zip _ _ _ _
      (hInv.l0t.trans hcapeq) (hInv.l0a.trans hcapeq)
      (le_of_le_of_eq hInv.b0 hcapeq) _ hInv.z0
    rw [hc0, hl0] at hpair
    refine ⟨n0, hn0T, hc, hd, hbad, ?_, hpair.1, hpair.2⟩
    rw [← hc, dets0_take env (by omega : n0 ≤ B * NC * A)]
  · intro h0 h1
    have hfin := bigLoop7_good env cap NC A B 0 0 (initState env cap)
      (initState_good7 env cap)
      (fun m hm =>
        le_trans (cnt0_mono env (by rw [hT]; omega : m ≤ B * NC * A)) h0)
      (fun m hm =>
        le_trans (cnt1_mono env (by rw [hT]; omega : m ≤ B * NC * A)) h1)
    rw [Nat.zero_add, Nat.zero_add] at hfin
    rw [runChunk7]
    refine ⟨hfin.1, ?_, ?_, ?_, ?_⟩
    · rw [hfin.2.2.2.2.2.1, hT]
    · rw [hfin.2.2.2.2.2.2.1, hT]
    · rw [hfin.2.2.2.2.2.2.2.1, hT]
    · rw [hfin.2.2.2.2.2.2.2.2.1, hT]

/-- Witness for C2: overflow case — capacity 1, two attempts, both
detecting on ttl0 with ttl1 silent; within-capacity case — the quiet
environment. -/
theorem C2_capacity_error_exactly_at_overflow_witness :
    (∃ n0, n0 < 1 * 1 * 2 ∧ cnt0 envDet0 n0 = 1 ∧ envDet0.t0 n0 ≠ -1 ∧
      Bad7 envDet0 1 n0 (runChunk7 envDet0 1 1 2 1) ∧
      dets0 envDet0 n0 = (dets0 envDet0 (1 * 1 * 2)).take 1 ∧
      (runChunk7 envDet0 1 1 2 1).t0times.take 1 =
        (dets0 envDet0 n0).map Prod.fst ∧
      (runChunk7 envDet0 1 1 2 1).t0attempts.take 1 =
        (dets0 envDet0 n0).map Prod.snd) ∧
    ((runChunk7 envQuiet 1 1 2 1).err = false ∧
     (runChunk7 envQuiet 1 1 2 1).c0 = cnt0 envQuiet (1 * 1 * 2) ∧
     (runChunk7 envQuiet 1 1 2 1).log0 = dets0 envQuiet (1 * 1 * 2) ∧
     (runChunk7 envQuiet 1 1 2 1).c1 = cnt1 envQuiet (1 * 1 * 2) ∧
     (runChunk7 envQuiet 1 1 2 1).log1 = dets1 envQuiet (1 * 1 * 2)) :=
  ⟨(C2_capacity_error_exactly_at_overflow envDet0 1 1 2 1).1 (by decide)
      (by decide),
   (C2_capacity_error_exactly_at_overflow envQuiet 1 1 2 1).2 (by decide)
      (by decide)⟩

/-- C4 counterexample: with the capacity Seq7's `run` allocates
(`chunk_max = num_big_cycles_chunk * num_cooling_cycles * 10`, here
`1 * 1 * 10 = 10`) and eleven attempts that all detect on ttl0, the claim
"every big cycle executes exactly `NC * A` attempts regardless of how
many detections occur, appending every detection" is false: the kernel
aborts with the capacity error at the eleventh detection, `attempt_index`
stops at 10 (not `NC * A = 11`), only 10 of the 11 encountered detections
are appended, and the cooling retune of the aborted cycle never runs. -/
theorem C4_counterexample_capacity_abort :
    (runChunk7 envDet0 1 1 11 10).err = true ∧
    (runChunk7 envDet0 1 1 11 10).attempt_index = 10 ∧
    (runChunk7 envDet0 1 1 11 10).c0 = 10 ∧
    (runChunk7 envDet0 1 1 11 10).recoveries = 0 ∧
    cnt0 envDet0 11 = 11 ∧ ¬ (10 : Nat) = 1 * 1 * 11 := by
  decide

/-- C4 (amended): provided no channel's detections exceed the allocated
capacity, the exhaust-all-attempts variant never terminates early: every
big cycle executes exactly `NC * A` attempts and every cooling cycle ends
with its retune, so a chunk of `B` big cycles executes exactly
`B * NC * A` attempts (indices `0..B*NC*A-1` in order) and `B * NC`
retunes, and every detection encountered along the way is appended to its
channel's log. -/
theorem C4_exhausts_budget_within_capacity (env : Env) (B NC A cap : Nat)
    (h0 : cnt0 env (B * NC * A) ≤ cap) (h1 : cnt1 env (B * NC * A) ≤ cap) :
    (runChunk7 env B NC A cap).err = false ∧
    (runChunk7 env B NC A cap).attempt_index = B * NC * A ∧
    (runChunk7 env B NC A cap).execOrd = B * NC * A ∧
    (runChunk7 env B NC A cap).attemptLog = List.range (B * NC * A) ∧
    (runChunk7 env B NC A cap).log0 = dets0 env (B * NC * A) ∧
    (runChunk7 env B NC A cap).log1 = dets1 env (B * NC * A) ∧
    (runChunk7 env B NC A cap).c0 = cnt0 env (B * NC * A) ∧
    (runChunk7 env B NC A cap).c1 = cnt1 env (B * NC * A) ∧
    (runChunk7 env B NC A cap).recoveries = B * NC := by
  have hT : B * NC * A = B * (NC * A) := by rw [Nat.mul_assoc]
  have hfin := bigLoop7_good env cap NC A B 0 0 (initState env cap)
    (initState_good7 env cap)
    (fun m hm =>
      le_trans (cnt0_mono env (by rw [hT]; omega : m ≤ B * NC * A)) h0)
    (fun m hm =>
      le_trans (cnt1_mono env (by rw [hT]; omega : m ≤ B * NC * A)) h1)
  rw [Nat.zero_add, Nat.zero_add] at hfin
  rw [runChunk7]
  refine ⟨hfin.1, ?_, ?_, ?_, ?_, ?_, ?_, ?_, hfin.2.2.2.2.2.2.2.2.2⟩
  · rw [hfin.2.2.1, hT]
  · rw [hfin.2.2.2.1, hT]
  · rw [hfin.2.2.2.2.1, hT]
  · rw [hfin.2.2.2.2.2.2.1, hT]
  · rw [hfin.2.2.2.2.2.2.2.2.1, hT]
  · rw [hfin.2.2.2.2.2.1, hT]
  · rw [hfin.2.2.2.2.2.2.2.1, hT]

/-- Witness for C4 (amended): one big cycle, two cooling cycles of two
attempts, capacity 4, every attempt detecting on ttl0: all four attempts
run, all four detections are appended, both retunes run. -/
theorem C4_exhausts_budget_within_capacity_witness :
    (runChunk7 envDet0 1 2 2 4).err = false ∧
    (runChunk7 envDet0 1 2 2 4).attempt_index = 1 * 2 * 2 ∧
    (runChunk7 envDet0 1 2 2 4).execOrd = 1 * 2 * 2 ∧
    (runChunk7 envDet0 1 2 2 4).attemptLog = List.range (1 * 2 * 2) ∧
    (runChunk7 envDet0 1 2 2 4).log0 = dets0 envDet0 (1 * 2 * 2) ∧
    (runChunk7 envDet0 1 2 2 4).log1 = dets1 envDet0 (1 * 2 * 2) ∧
    (runChunk7 envDet0 1 2 2 4).c0 = cnt0 envDet0 (1 * 2 * 2) ∧
    (runChunk7 envDet0 1 2 2 4).c1 = cnt1 envDet0 (1 * 2 * 2) ∧
    (runChunk7 envDet0 1 2 2 4).recoveries = 1 * 2 :=
  C4_exhausts_budget_within_capacity envDet0 1 2 2 4 (by decide) (by decide)

/-! ### Claim C8: durable persistence only at chunk boundaries -/

/-- The Seq6 host loop emits, per chunk, exactly one live publication,
one append of the drained data, and one flush, in that order. -/
theorem hostRun6_blocks (envs : Nat → Env) (B NC A : Nat) :
    ∀ (k c : Nat),
      hostRun6 envs B NC A k c =
        (List.range' c k).flatMap fun i =>
          [HEv.publish i (drainOf (runChunk6 (envs i) B NC A (6 * B))),
           HEv.append i (drainOf (runChunk6 (envs i) B NC A (6 * B))),
           HEv.flush] := by
  intro k
  induction k with
  | zero => intro c; simp [hostRun6]
  | succ k ih =>
    intro c
    rw [hostRun6, List.range'_succ, List.flatMap_cons, ih (c + 1)]
    rfl

/-- Each chunk flushes exactly once. -/
theorem hostRun6_flush_count (envs : Nat → Env) (B NC A : Nat) :
    ∀ (k c : Nat), (hostRun6 envs B NC A k c).count HEv.flush = k := by
  intro k
  induction k with
  | zero => intro c; simp [hostRun6]
  | succ k ih =>
    intro c
    rw [hostRun6]
    simp [List.count_cons, ih (c + 1)]

/-- Durability of any crash prefix of the Seq6 host trace: the data that
survives is exactly the drained data of the chunks whose flush completed
within the prefix — one full three-event block per chunk. -/
theorem durAux_hostRun6 (envs : Nat → Env) (B NC A : Nat) :
    ∀ (k c m : Nat) (dur : List (Nat × Drained)),
      durAux ((hostRun6 envs B NC A k c).take m) dur [] =
        dur ++ (List.range' c (min (m / 3) k)).map
          (fun i => (i, drainOf (runChunk6 (envs i) B NC A (6 * B)))) := by
  intro k
  induction k with
  | zero => intro c m dur; simp [hostRun6, durAux]
  | succ k ih =>
    intro c m dur
    rcases m with _ | (_ | (_ | m'))
    · simp [durAux]
    · simp [hostRun6, durAux]
    · simp [hostRun6, durAux]
    · have hdiv : (m' + 1 + 1 + 1) / 3 = m' / 3 + 1 := by omega
      rw [hostRun6]
      simp only [List.take_succ_cons, durAux, List.nil_append]
      rw [ih (c + 1) m' (dur ++ [(c,
        drainOf (runChunk6 (envs c) B NC A (6 * B)))])]
      rw [hdiv, Nat.succ_min_succ, List.range'_succ]
      simp

/-- C8: `FullExperimentSequence17.run` persists durably only at chunk
boundaries.  Its persistence trace consists, per chunk, of exactly one
live publication, one append of that chunk's drained records to the
HDF5 sink, and one flush (in that order); consequently, for any crash
point `m` (a prefix of the trace), the durable data is exactly the
drained data of the `min (m / 3) n` chunks whose flush completed before
the crash — after the flush of chunk `k` the data of chunks `0..k`
survives any subsequent failure, and a failure mid-chunk loses at most
the in-progress chunk's data, never a prior chunk's. -/
theorem C8_durable_only_at_chunk_boundaries (envs : Nat → Env)
    (B NC A n : Nat) :
    (hostTrace6 envs B NC A n =
      (List.range n).flatMap fun i =>
        [HEv.publish i (drainOf (runChunk6 (envs i) B NC A (6 * B))),
         HEv.append i (drainOf (runChunk6 (envs i) B NC A (6 * B))),
         HEv.flush]) ∧
    ((hostTrace6 envs B NC A n).count HEv.flush = n) ∧
    (∀ m, durable ((hostTrace6 envs B NC A n).take m) =
      (List.range' 0 (min (m / 3) n)).map
        (fun i => (i, drainOf (runChunk6 (envs i) B NC A (6 * B))))) := by
  refine ⟨?_, ?_, ?_⟩
  · rw [hostTrace6, hostRun6_blocks, List.range_eq_range']
  · rw [hostTrace6, hostRun6_flush_count]
  · intro m
    rw [hostTrace6, durable, durAux_hostRun6]
    rfl

end ArtiqSeq
